import Mathlib

/-!
# MiSub: profile resolution and node aggregation

A shallow embedding of `functions/modules/subscription/profile-handler.js`
(`generateExpiredNode` and `handleProfileMode`) together with the properties
of the credential resolver, the access gate, the source merger, the retrieval
orchestrator and the transform switch.

Conventions of the embedding

* an optional JavaScript field is an `Option`; `none` stands for an absent
  (`undefined` / `null`) field;
* a string used as a condition is truthy exactly when it is present and
  non-empty (`truthy`);
* the mutable variable `matchedTokenConfig`, written by the callback of
  `allProfiles.find`, is threaded explicitly through `findProfile`;
* the collaborators imported from other modules (storage, clock, date parser,
  fetcher, node parser, transform pipeline, URL parser, statistics helpers)
  are the fields of `Env`.
-/

namespace MiSub

/-! ## Data model -/

/-- One record of a profile's `accessTokens`. -/
structure AccessToken where
  token : String
  enabled : Option Bool
  expiresAt : Option String
deriving DecidableEq, Repr

/-- The `nodeTransform` configuration of a profile: the two fields the handler
reads (`enabled`, `rename.template.template`), the field it overwrites
(`enableEmoji`) and the remaining settings, which it only passes on. -/
structure NodeTransform where
  enabled : Bool
  enableEmoji : Bool
  renameTemplate : Option String
  settings : String
deriving DecidableEq, Repr

/-- A subscription group. `subscriptions` and `manualNodes` are `none` when the
field is absent or not an array. -/
structure Profile where
  id : String
  customId : Option String
  accessTokens : Option (List AccessToken)
  subscriptions : Option (List String)
  manualNodes : Option (List String)
  enabled : Bool
  expiresAt : Option String
  nodeTransform : Option NodeTransform
deriving DecidableEq, Repr

/-- An entry of the shared source collection (remote subscription or manual node). -/
structure Source where
  id : String
  name : String
  url : String
  enabled : Bool
  exclude : Option String
  customUserAgent : Option String
deriving DecidableEq, Repr

/-- A parsed node record. -/
structure Node where
  name : String
  type : String
  server : String
  port : Nat
  uuid : String
  alterId : Nat
  cipher : String
  tls : Bool
  network : String
  subscriptionName : Option String
  url : String
deriving DecidableEq, Repr

/-- A per-source result record, as returned by `fetchSubscriptionNodes` and as
built for a manual node. -/
structure SourceResult where
  subscriptionName : String
  url : String
  success : Bool
  nodes : List Node
  error : Option String
  isManualNode : Bool
deriving DecidableEq, Repr

/-- The object returned by `handleProfileMode` on its two successful paths. -/
structure ProfileResult where
  success : Bool
  subscriptions : List SourceResult
  nodes : List Node
  totalCount : Nat
  protocols : List (String × Nat)
  regions : List (String × Nat)
deriving DecidableEq, Repr

/-- What a call of `handleProfileMode` ends with: the value of
`createJsonResponse(body, status)`, a result object, or an exception. -/
inductive Outcome where
  | jsonResponse (error : String) (status : Nat)
  | result (r : ProfileResult)
  | thrown (exceptionName : String)
deriving DecidableEq, Repr

/-- The collaborators of the handler. `storedProfiles` / `storedSubscriptions`
are the values of `storageAdapter.get`, `now` is `new Date()` in milliseconds,
`parseDate` is `new Date(s).getTime()` with `none` for `NaN`, and `parseURL`
is `new URL(s)` reduced to `(hostname, port)` with `none` when it throws. -/
structure Env where
  storedProfiles : Option (List Profile)
  storedSubscriptions : Option (List Source)
  now : Int
  parseDate : String → Option Int
  fetchSubscriptionNodes :
    String → String → String → Option String → Bool → Option String → SourceResult
  parseNodeInfo : String → Node
  applyNodeTransformPipeline : List String → NodeTransform → List String
  parseURL : String → Option (String × String)
  calculateProtocolStats : List Node → List (String × Nat)
  calculateRegionStats : List Node → List (String × Nat)

/-- JavaScript truthiness of an optional string. -/
def truthy : Option String → Bool
  | some s => s != ""
  | none => false

/-- The value of `a || b` for a string `a` and a string default `b`. -/
def orDefault (a : String) (b : String) : String :=
  if a != "" then a else b

/-! ## `generateExpiredNode` (lines 14-31) -/

/-- The escape `JSON.stringify` writes for one character of a string. -/
def quoteJSONChar (c : Char) : List Char :=
  if c.toNat = 34 then [Char.ofNat 92, Char.ofNat 34]
  else if c.toNat = 92 then [Char.ofNat 92, Char.ofNat 92]
  else if c.toNat = 8 then [Char.ofNat 92, 'b']
  else if c.toNat = 12 then [Char.ofNat 92, 'f']
  else if c.toNat = 10 then [Char.ofNat 92, 'n']
  else if c.toNat = 13 then [Char.ofNat 92, 'r']
  else if c.toNat = 9 then [Char.ofNat 92, 't']
  else if c.toNat < 32 then
    [Char.ofNat 92, 'u', '0', '0',
      "0123456789abcdef".toList.getD (c.toNat / 16) '0',
      "0123456789abcdef".toList.getD (c.toNat % 16) '0']
  else [c]

/-- The text `JSON.stringify` writes for a string value. -/
def quoteJSONString (s : String) : List Char :=
  [Char.ofNat 34] ++ (s.toList.map quoteJSONChar).flatten ++ [Char.ofNat 34]

/-- The members `JSON.stringify` writes for an object whose values are all strings,
keys in order. -/
def stringifyFields : List (String × String) → List Char
  | [] => []
  | [(k, v)] => quoteJSONString k ++ [':'] ++ quoteJSONString v
  | (k, v) :: rest => quoteJSONString k ++ [':'] ++ quoteJSONString v ++ [','] ++ stringifyFields rest

/-- The call `JSON.stringify(obj)` for a flat object of string fields. -/
def jsonStringify (fields : List (String × String)) : String :=
  String.mk ([Char.ofNat 123] ++ stringifyFields fields ++ [Char.ofNat 125])

/-- The base64 digit of a six-bit value. -/
def base64Digit (n : Nat) : Char :=
  "ABCDEFGHIJKLMNOPQRSTUVWXYZabcdefghijklmnopqrstuvwxyz0123456789+/".toList.getD n 'A'

/-- Base64 of a byte sequence, with padding. -/
def base64Encode : List Nat → List Char
  | a :: b :: c :: rest =>
      base64Digit (a / 4) :: base64Digit ((a % 4) * 16 + b / 16) ::
        base64Digit ((b % 16) * 4 + c / 64) :: base64Digit (c % 64) :: base64Encode rest
  | [a, b] => [base64Digit (a / 4), base64Digit ((a % 4) * 16 + b / 16), base64Digit ((b % 16) * 4), '=']
  | [a] => [base64Digit (a / 4), base64Digit ((a % 4) * 16), '=', '=']
  | [] => []

/-- The platform function `btoa`: it throws `InvalidCharacterError` when the
string holds a character above U+00FF and otherwise encodes the characters as
bytes. -/
def btoa (s : String) : Except String String :=
  if s.toList.any (fun c => decide (255 < c.toNat)) then .error "InvalidCharacterError"
  else .ok (String.mk (base64Encode (s.toList.map Char.toNat)))

/-- The body of `generateExpiredNode` (lines 15-30) with the base64 encoder it
calls as a parameter. The object literal evaluates its properties in order,
`url` last; an exception of the encoder leaves the function. -/
def generateExpiredNodeWith (encode : String → Except String String) (message : String) :
    Except String (List Node) :=
  let errorNodeName := "[提示] " ++ message
  match encode (jsonStringify
      [("v", "2"), ("ps", errorNodeName), ("add", "127.0.0.1"), ("port", "80"),
       ("id", "00000000-0000-0000-0000-000000000000"), ("aid", "0"), ("scy", "auto"),
       ("net", "tcp"), ("type", "none"), ("host", ""), ("path", ""), ("tls", "")]) with
  | .error e => .error e
  | .ok encoded =>
    .ok [{ name := errorNodeName
           type := "vmess"
           server := "127.0.0.1"
           port := 80
           uuid := "00000000-0000-0000-0000-000000000000"
           alterId := 0
           cipher := "auto"
           tls := false
           network := "tcp"
           subscriptionName := some "系统提示"
           url := "vmess://" ++ encoded }]

/-- The placeholder node list of an expired link: the function
`generateExpiredNode`, whose encoder is the platform `btoa`. -/
def generateExpiredNode (message : String) : Except String (List Node) :=
  generateExpiredNodeWith btoa message

/-! ## Credential resolver (lines 50-69) -/

/-- The test of the inner `p.accessTokens.find`. -/
def tokenEligible (profileId : String) (t : AccessToken) : Bool :=
  t.token == profileId && t.enabled != some false

/-- The callback of `allProfiles.find`: its return value and the value of
`matchedTokenConfig` after the call. -/
def matchProfile (profileId : String) (p : Profile) (matchedTokenConfig : Option AccessToken) :
    Bool × Option AccessToken :=
  if p.id == profileId then (true, matchedTokenConfig)
  else if truthy p.customId && p.customId == some profileId then (true, matchedTokenConfig)
  else
    match p.accessTokens with
    | some tokens =>
      match tokens.find? (tokenEligible profileId) with
      | some tokenMatch => (true, some tokenMatch)
      | none => (false, matchedTokenConfig)
    | none => (false, matchedTokenConfig)

/-- The call `allProfiles.find(callback)`, threading `matchedTokenConfig`. -/
def findProfile (profileId : String) :
    List Profile → Option AccessToken → Option Profile × Option AccessToken
  | [], matchedTokenConfig => (none, matchedTokenConfig)
  | p :: rest, matchedTokenConfig =>
    match matchProfile profileId p matchedTokenConfig with
    | (true, m) => (some p, m)
    | (false, m) => findProfile profileId rest m

/-- The profile collection read from storage (`get(KV_KEY_PROFILES) || []`). -/
def allProfiles (env : Env) : List Profile := env.storedProfiles.getD []

/-- The source collection read from storage (`get(KV_KEY_SUBS) || []`). -/
def allSubscriptions (env : Env) : List Source := env.storedSubscriptions.getD []

/-- Lines 50-69: the matched profile and the final `matchedTokenConfig`. -/
def resolveCredential (env : Env) (profileId : String) : Option Profile × Option AccessToken :=
  findProfile profileId (allProfiles env) none

/-! ## Access gate (lines 71-99) -/

/-- Lines 77-82: the expiration the check runs on. -/
def effectiveExpiresAt (profile : Profile) (matchedTokenConfig : Option AccessToken) :
    Option String :=
  match matchedTokenConfig with
  | some t => if truthy t.expiresAt then t.expiresAt else profile.expiresAt
  | none => profile.expiresAt

/-- Lines 85-89: the condition under which the expired branch is taken. -/
def isExpired (env : Env) (expiresAt : Option String) : Bool :=
  truthy expiresAt &&
    match expiresAt.bind env.parseDate with
    | some expDate => decide (env.now > expDate)
    | none => false

/-- The three ways the handler can go after the lookup. -/
inductive Gate where
  | denied
  | expired (expiresAt : String)
  | active (profile : Profile)
deriving DecidableEq, Repr

/-- Lines 71-99 as a decision: the 404 return, the expired return, or falling
through to the aggregation. -/
def accessGate (env : Env) (found : Option Profile × Option AccessToken) : Gate :=
  match found.1 with
  | none => .denied
  | some profile =>
    if !profile.enabled then .denied
    else
      let expiresAt := effectiveExpiresAt profile found.2
      if isExpired env expiresAt then .expired (expiresAt.getD "") else .active profile

/-! ## Source merger (lines 101-130) -/

/-- The method `Map.prototype.set` on the entries of a map, kept in insertion order: an
existing key keeps its place and takes the new value. -/
def mapSet (key : String) (value : Source) : List (String × Source) → List (String × Source)
  | [] => [(key, value)]
  | (k, v) :: rest => if k == key then (key, value) :: rest else (k, v) :: mapSet key value rest

/-- The constructor `new Map(entries)`. -/
def newMap (entries : List (String × Source)) : List (String × Source) :=
  entries.foldl (fun m e => mapSet e.1 e.2 m) []

/-- The method `Map.prototype.get`. -/
def mapGet (m : List (String × Source)) (key : String) : Option Source :=
  (m.find? (fun e => e.1 == key)).map (fun e => e.2)

/-- The method `s.startsWith(p)`. -/
def startsWith (s : String) (p : String) : Bool := p.toList.isPrefixOf s.toList

/-- Line 102. -/
def misubMap (env : Env) : List (String × Source) :=
  newMap ((allSubscriptions env).map (fun item => (item.id, item)))

/-- Lines 109-114: the `forEach` over the profile's subscription ids. -/
def pushSubscriptions (m : List (String × Source)) (ids : List String)
    (targetMisubs : List Source) : List Source :=
  ids.foldl (fun acc id =>
    match mapGet m id with
    | some sub => if sub.enabled && startsWith sub.url "http" then acc ++ [sub] else acc
    | none => acc) targetMisubs

/-- Lines 120-125: the `forEach` over the profile's manual node ids. -/
def pushManualNodes (m : List (String × Source)) (ids : List String)
    (targetMisubs : List Source) : List Source :=
  ids.foldl (fun acc id =>
    match mapGet m id with
    | some node => if node.enabled && !startsWith node.url "http" then acc ++ [node] else acc
    | none => acc) targetMisubs

/-- Lines 104-126: `targetMisubs` after both loops. -/
def targetMisubs (env : Env) (profile : Profile) : List Source :=
  let afterSubs :=
    match profile.subscriptions with
    | some profileSubIds => pushSubscriptions (misubMap env) profileSubIds []
    | none => []
  match profile.manualNodes with
  | some profileNodeIds => pushManualNodes (misubMap env) profileNodeIds afterSubs
  | none => afterSubs

/-- Line 129. -/
def targetSubscriptions (env : Env) (profile : Profile) : List Source :=
  (targetMisubs env profile).filter (fun item => startsWith item.url "http")

/-- Line 130. -/
def targetManualNodes (env : Env) (profile : Profile) : List Source :=
  (targetMisubs env profile).filter (fun item => !startsWith item.url "http")

/-! ## Retrieval orchestrator (lines 132-162) -/

/-- Lines 133-146: the callback of `targetManualNodes.map`. -/
def manualNodeResult (env : Env) (node : Source) : SourceResult :=
  let nodeInfo := env.parseNodeInfo node.url
  { subscriptionName := orDefault node.name "手工节点"
    url := node.url
    success := true
    nodes := [{ nodeInfo with subscriptionName := some (orDefault node.name "手工节点") }]
    error := none
    isManualNode := true }

/-- Line 150: the callback of `targetSubscriptions.map`. -/
def fetchResult (env : Env) (userAgent : String) (sub : Source) : SourceResult :=
  env.fetchSubscriptionNodes sub.url sub.name userAgent sub.customUserAgent false sub.exclude

/-- Lines 133-154: `allResults`. -/
def allResults (env : Env) (profile : Profile) (userAgent : String) : List SourceResult :=
  (targetSubscriptions env profile).map (fetchResult env userAgent) ++
    (targetManualNodes env profile).map (manualNodeResult env)

/-- Lines 157-162: the `forEach` that collects `allNodes`. -/
def collectNodes (results : List SourceResult) : List Node :=
  results.foldl (fun acc result => if result.success then acc ++ result.nodes else acc) []

/-! ## Transform adapter (lines 164-199) -/

/-- The method `s.includes(sub)` on character lists. -/
def includesChars (sub : List Char) : List Char → Bool
  | [] => sub.isPrefixOf []
  | c :: cs => sub.isPrefixOf (c :: cs) || includesChars sub cs

/-- The method `s.includes(sub)`. -/
def includes (s : String) (sub : String) : Bool := includesChars sub.toList s.toList

/-- Line 166: the condition of the transform branch, with the configuration it
runs on. -/
def activeTransform (applyTransform : Bool) (profile : Profile) : Option NodeTransform :=
  if applyTransform then
    match profile.nodeTransform with
    | some nodeTransform => if nodeTransform.enabled then some nodeTransform else none
    | none => none
  else none

/-- Lines 172-173. -/
def effectiveTemplate (nodeTransform : NodeTransform) : String :=
  if truthy nodeTransform.renameTemplate then nodeTransform.renameTemplate.getD ""
  else "\x7bemoji\x7d\x7bregion\x7d-\x7bprotocol\x7d-\x7bindex\x7d"

/-- Lines 174-177: the configuration handed to the pipeline. -/
def transformConfig (nodeTransform : NodeTransform) : NodeTransform :=
  { nodeTransform with enableEmoji := includes (effectiveTemplate nodeTransform) "\x7bemoji\x7d" }

/-- Lines 184-193: the callback of `allNodes.find`; a throwing `new URL` makes
it return false. -/
def sameHostPort (env : Env) (transformedUrl : String) (n : Node) : Bool :=
  match env.parseURL n.url with
  | none => false
  | some origUrl =>
    match env.parseURL transformedUrl with
    | none => false
    | some transUrl => origUrl.1 == transUrl.1 && origUrl.2 == transUrl.2

/-- Lines 181-198: the callback of `transformedUrls.map`. -/
def recorrelate (env : Env) (allNodes : List Node) (transformedUrl : String) : Node :=
  let nodeInfo := env.parseNodeInfo transformedUrl
  let originalNode := allNodes.find? (sameHostPort env transformedUrl)
  let inherited := originalNode.bind (fun n => n.subscriptionName)
  { nodeInfo with
    subscriptionName :=
      if truthy inherited then inherited
      else if truthy nodeInfo.subscriptionName then nodeInfo.subscriptionName
      else some "未知" }

/-- Lines 165-199: `processedNodes`. -/
def processNodes (env : Env) (profile : Profile) (applyTransform : Bool)
    (allNodes : List Node) : List Node :=
  match activeTransform applyTransform profile with
  | some nodeTransform =>
    let nodeUrls := allNodes.map (fun node => node.url)
    let transformedUrls := env.applyNodeTransformPipeline nodeUrls (transformConfig nodeTransform)
    transformedUrls.map (recorrelate env allNodes)
  | none => allNodes

/-! ## The handler -/

/-- Lines 101-214: the result object of a request that passed the gate. -/
def aggregate (env : Env) (profile : Profile) (userAgent : String) (applyTransform : Bool) :
    ProfileResult :=
  let results := allResults env profile userAgent
  let allNodes := collectNodes results
  let processedNodes := processNodes env profile applyTransform allNodes
  { success := true
    subscriptions := results
    nodes := processedNodes
    totalCount := processedNodes.length
    protocols := env.calculateProtocolStats processedNodes
    regions := env.calculateRegionStats processedNodes }

/-- Lines 91-97: the object literal the expired branch returns. -/
def expiredResult (expiredNodes : List Node) : ProfileResult :=
  { success := true
    subscriptions := []
    nodes := expiredNodes
    totalCount := 1
    protocols := []
    regions := [] }

/-- Lines 90-97 with the base64 encoder of `generateExpiredNode` as a parameter:
the placeholder is generated and wrapped in the result object. -/
def expiredOutcomeWith (encode : String → Except String String) (expiresAt : String) :
    Outcome :=
  match generateExpiredNodeWith encode
      ("此订阅链接已于 " ++ expiresAt ++ " 到期，请联系管理员。") with
  | .error e => .thrown e
  | .ok expiredNodes => .result (expiredResult expiredNodes)

/-- Lines 90-97: the return value of the expired branch. -/
def expiredOutcome (expiresAt : String) : Outcome :=
  expiredOutcomeWith btoa expiresAt

/-- The function `handleProfileMode(request, env, profileId, userAgent, applyTransform)`;
`request` is not read by the body. -/
def handleProfileMode (env : Env) (profileId : String) (userAgent : String)
    (applyTransform : Bool) : Outcome :=
  match accessGate env (resolveCredential env profileId) with
  | .denied => .jsonResponse "订阅组不存在或已禁用" 404
  | .expired expiresAt => expiredOutcome expiresAt
  | .active profile => .result (aggregate env profile userAgent applyTransform)

/-! ## Specification-level definitions -/

/-- The three matching rules, read off the specification: the identifier is the
profile's id, or its present (non-empty) customId, or the token of one of its
access tokens whose `enabled` is not false. -/
def matchesIdentifier (profileId : String) (p : Profile) : Bool :=
  p.id == profileId
    || (match p.customId with
        | some c => c != "" && c == profileId
        | none => false)
    || (match p.accessTokens with
        | some tokens => tokens.any (fun t => t.token == profileId && t.enabled != some false)
        | none => false)

/-- Rules (1) and (2) of the specification only: the identifier is the profile's
id or its present customId. -/
def matchesById (profileId : String) (p : Profile) : Bool :=
  p.id == profileId
    || (match p.customId with
        | some c => c != "" && c == profileId
        | none => false)

/-! ## A concrete deployment, used to instantiate the theorems -/

/-- Source S1: an enabled remote subscription. -/
def srcS1 : Source :=
  { id := "S1", name := "Feed one", url := "https://s1.example/sub", enabled := true,
    exclude := none, customUserAgent := none }

/-- Source S2: a disabled remote subscription. -/
def srcS2 : Source :=
  { id := "S2", name := "Feed two", url := "https://s2.example/sub", enabled := false,
    exclude := none, customUserAgent := none }

/-- Source M1: an enabled manual node. -/
def srcM1 : Source :=
  { id := "M1", name := "Home", url := "trojan://pw@m1.example:443", enabled := true,
    exclude := none, customUserAgent := none }

/-- Source M2: an enabled manual node without a name. -/
def srcM2 : Source :=
  { id := "M2", name := "", url := "ss://m2.example:8388", enabled := true,
    exclude := none, customUserAgent := none }

/-- An access token without `enabled` and without expiration. -/
def tokPlain : AccessToken := { token := "tk-plain", enabled := none, expiresAt := none }

/-- An access token whose expiration lies in the past. -/
def tokDead : AccessToken :=
  { token := "tk-dead", enabled := some true, expiresAt := some "2020-01-01" }

/-- An access token switched off. -/
def tokOff : AccessToken := { token := "tk-off", enabled := some false, expiresAt := none }

/-- An access token whose expiration lies in the future. -/
def tokLive : AccessToken :=
  { token := "tk-live", enabled := some true, expiresAt := some "2099-01-01" }

/-- An access token whose value is also the id of its profile. -/
def tokSelf : AccessToken :=
  { token := "beta", enabled := some true, expiresAt := some "2099-01-01" }

/-- Profile alpha: enabled, no expiration, sources S1, S2 and M1. -/
def profAlpha : Profile :=
  { id := "alpha", customId := some "legacy", accessTokens := some [tokPlain, tokDead, tokOff],
    subscriptions := some ["S1", "S2"], manualNodes := some ["M1"], enabled := true,
    expiresAt := none, nodeTransform := none }

/-- Profile beta: enabled, its own expiration in the past. -/
def profBeta : Profile :=
  { id := "beta", customId := none, accessTokens := some [tokLive, tokSelf],
    subscriptions := some ["S1"], manualNodes := some ["M1", "M2"], enabled := true,
    expiresAt := some "2020-01-01", nodeTransform := none }

/-- Profile gamma: disabled and past its expiration. -/
def profGamma : Profile :=
  { id := "gamma", customId := some "", accessTokens := none,
    subscriptions := some ["S1"], manualNodes := none, enabled := false,
    expiresAt := some "2020-01-01", nodeTransform := none }

/-- Profile delta: enabled, manual nodes only, with an enabled transform. -/
def profDelta : Profile :=
  { id := "delta", customId := none, accessTokens := none,
    subscriptions := none, manualNodes := some ["M1", "M2"], enabled := true,
    expiresAt := none,
    nodeTransform :=
      some { enabled := true, enableEmoji := false, renameTemplate := none, settings := "" } }

/-- A parser that keeps the url and labels the node itself. -/
def sampleParse (url : String) : Node :=
  { name := "node", type := "trojan", server := "host", port := 443, uuid := "", alterId := 0,
    cipher := "", tls := true, network := "tcp", subscriptionName := some "from parser",
    url := url }

/-- A deployment in which every remote fetch fails, on 2025-11-04. -/
def sampleEnv : Env :=
  { storedProfiles := some [profAlpha, profBeta, profGamma, profDelta]
    storedSubscriptions := some [srcS1, srcS2, srcM1, srcM2]
    now := 1762214400000
    parseDate := fun s =>
      if s == "2020-01-01" then some 1577836800000
      else if s == "2099-01-01" then some 4070908800000
      else none
    fetchSubscriptionNodes := fun url name _ _ _ _ =>
      { subscriptionName := name, url := url, success := false, nodes := [],
        error := some "fetch failed", isManualNode := false }
    parseNodeInfo := sampleParse
    applyNodeTransformPipeline := fun urls _ => urls.reverse
    parseURL := fun _ => none
    calculateProtocolStats := fun _ => []
    calculateRegionStats := fun _ => [] }

/-- The filter the specification puts on an id of the `subscriptions` list: the
source the id maps to, if it is found, enabled and HTTP-prefixed. -/
def subscriptionFor (env : Env) (id : String) : Option Source :=
  (mapGet (misubMap env) id).filter (fun s => s.enabled && startsWith s.url "http")

/-- The filter the specification puts on an id of the `manualNodes` list: the
source the id maps to, if it is found, enabled and not HTTP-prefixed. -/
def manualNodeFor (env : Env) (id : String) : Option Source :=
  (mapGet (misubMap env) id).filter (fun s => s.enabled && !startsWith s.url "http")

/-- Source Merger, as specified: the declared subscription ids, in order, mapped
to their sources, with the ids that fail the filter removed. -/
def mergedSubscriptions (env : Env) (profile : Profile) : List Source :=
  (profile.subscriptions.getD []).filterMap (subscriptionFor env)

/-- Source Merger, as specified: the declared manual node ids, in order, mapped
to their sources, with the ids that fail the filter removed. -/
def mergedManualNodes (env : Env) (profile : Profile) : List Source :=
  (profile.manualNodes.getD []).filterMap (manualNodeFor env)

/-! ## Further specification-level definitions -/

/-- The sum of the values of a statistics mapping. -/
def statSum (stats : List (String × Nat)) : Nat := (stats.map (fun e => e.2)).sum

/-- The reading "begins with an HTTP(S) scheme, i.e. http:// or https://". -/
def hasHttpScheme (url : String) : Bool :=
  startsWith url "http://" || startsWith url "https://"

/-- Host and port of a transformed url equal host and port of a node: both urls
parse and give the same hostname and the same port. -/
def sameEndpoint (env : Env) (transformedUrl : String) (n : Node) : Bool :=
  match env.parseURL transformedUrl, env.parseURL n.url with
  | some t, some o => t.1 == o.1 && t.2 == o.2
  | _, _ => false

/-- The label the specification gives a re-parsed record that inherits nothing:
its own subscriptionName if non-empty, else the generic label. -/
def fallbackLabel (nodeInfo : Node) : Option String :=
  if truthy nodeInfo.subscriptionName then nodeInfo.subscriptionName else some "未知"

/-- The effective template as specified: the custom template when it is set and
non-empty, the default otherwise. -/
def templateFor (custom : Option String) : String :=
  match custom with
  | some t => if t = "" then "\x7bemoji\x7d\x7bregion\x7d-\x7bprotocol\x7d-\x7bindex\x7d" else t
  | none => "\x7bemoji\x7d\x7bregion\x7d-\x7bprotocol\x7d-\x7bindex\x7d"

/-! ## A second deployment: transform, duplicates, shadowing -/

/-- A disabled profile answering to the legacy id "shared". -/
def profRetired : Profile :=
  { id := "old", customId := some "shared", accessTokens := none,
    subscriptions := some ["F1"], manualNodes := none, enabled := false,
    expiresAt := none, nodeTransform := none }

/-- An enabled profile answering to the same legacy id "shared". -/
def profCurrent : Profile :=
  { id := "new", customId := some "shared", accessTokens := none,
    subscriptions := some ["F1"], manualNodes := some ["N1"], enabled := true,
    expiresAt := none, nodeTransform := none }

/-- An enabled profile with an enabled transform and a stored enableEmoji of false. -/
def profRelabel : Profile :=
  { id := "relabel", customId := none, accessTokens := none,
    subscriptions := some ["F1", "F2", "X1", "D1", "D1"], manualNodes := some ["N1", "X1"],
    enabled := true, expiresAt := none,
    nodeTransform :=
      some { enabled := true, enableEmoji := false, renameTemplate := none, settings := "rules" } }

/-- Source F1: a named remote subscription. -/
def srcF1 : Source :=
  { id := "F1", name := "Feed", url := "https://f1.example/sub", enabled := true,
    exclude := none, customUserAgent := none }

/-- Source F2: a remote subscription stored without a name. -/
def srcF2 : Source :=
  { id := "F2", name := "", url := "https://f2.example/sub", enabled := true,
    exclude := none, customUserAgent := none }

/-- Source X1: a url that begins with "http" without an http:// or https:// scheme. -/
def srcX1 : Source :=
  { id := "X1", name := "Relay", url := "httpx://relay.example:443", enabled := true,
    exclude := none, customUserAgent := none }

/-- Source D1, first entry: disabled. -/
def srcD1a : Source :=
  { id := "D1", name := "Stale", url := "https://d1a.example/sub", enabled := false,
    exclude := none, customUserAgent := none }

/-- Source D1, second entry with the same id: enabled. -/
def srcD1b : Source :=
  { id := "D1", name := "Fresh", url := "https://d1b.example/sub", enabled := true,
    exclude := none, customUserAgent := none }

/-- Source N1: a manual node. -/
def srcN1 : Source :=
  { id := "N1", name := "Home", url := "trojan://pw@n1.example:443", enabled := true,
    exclude := none, customUserAgent := none }

/-- A parser that labels every node itself, except for the text "garbage". -/
def demoParse (url : String) : Node :=
  { sampleParse url with
    subscriptionName := if url == "garbage" then none else some "from parser" }

/-- A node as the fetcher of the second deployment tags it: with the display
name it was called with. -/
def fetchedNode (url : String) (name : String) : Node :=
  { demoParse url with subscriptionName := some name }

/-- The url without its fragment. -/
def dropFragment (url : String) : String :=
  String.mk (url.toList.takeWhile (fun c => c != '#'))

/-- A deployment in which F1 and F2 deliver one node each, every other fetch
fails, the pipeline reverses the urls, appends a fragment to each and adds one
unparsable url, and the statistics helpers count every node once. -/
def demoEnv : Env :=
  { storedProfiles := some [profRetired, profCurrent, profRelabel]
    storedSubscriptions := some [srcF1, srcF2, srcX1, srcD1a, srcD1b, srcN1]
    now := 1762214400000
    parseDate := fun _ => none
    fetchSubscriptionNodes := fun url name _ _ _ _ =>
      if url == "https://f1.example/sub" then
        { subscriptionName := name, url := url, success := true,
          nodes := [fetchedNode "trojan://pw@a.example:443" name], error := none,
          isManualNode := false }
      else if url == "https://f2.example/sub" then
        { subscriptionName := name, url := url, success := true,
          nodes := [fetchedNode "ss://x@b.example:8388" name], error := none,
          isManualNode := false }
      else
        { subscriptionName := name, url := url, success := false, nodes := [],
          error := some "fetch failed", isManualNode := false }
    parseNodeInfo := demoParse
    applyNodeTransformPipeline := fun urls _ =>
      (urls.reverse.map (fun u => u ++ "#renamed")) ++ ["garbage"]
    parseURL := fun s =>
      if dropFragment s == "trojan://pw@a.example:443" then some ("a.example", "443")
      else if dropFragment s == "ss://x@b.example:8388" then some ("b.example", "8388")
      else if dropFragment s == "trojan://pw@n1.example:443" then some ("n1.example", "443")
      else none
    calculateProtocolStats := fun nodes =>
      if nodes.length = 0 then [] else [("trojan", nodes.length)]
    calculateRegionStats := fun nodes =>
      if nodes.length = 0 then [] else [("unknown", nodes.length)] }

/-! # Properties -/

/-! ## Credential resolver -/

theorem customId_rule (profileId : String) (p : Profile) :
    (truthy p.customId && p.customId == some profileId) =
      (match p.customId with
        | some c => c != "" && c == profileId
        | none => false) := by
  cases h : p.customId with
  | none => simp [truthy]
  | some c => simp [truthy]

theorem matchProfile_fst (profileId : String) (p : Profile) (m : Option AccessToken) :
    (matchProfile profileId p m).1 = matchesIdentifier profileId p := by
  unfold matchProfile matchesIdentifier
  rw [customId_rule]
  by_cases h1 : (p.id == profileId) = true
  · simp [h1]
  · by_cases h2 : (match p.customId with
        | some c => c != "" && c == profileId
        | none => false) = true
    · simp [h1, h2]
    · simp only [h1, h2, Bool.false_eq_true, if_false, Bool.false_or, Bool.not_eq_true]
      cases ht : p.accessTokens with
      | none => simp
      | some tokens =>
        simp only [Bool.false_or]
        cases hf : tokens.find? (tokenEligible profileId) with
        | none =>
          simp only
          rw [List.find?_eq_none] at hf
          symm
          rw [List.any_eq_false]
          intro t ht
          have := hf t ht
          simpa [tokenEligible] using this
        | some t =>
          simp only
          symm
          rw [List.any_eq_true]
          refine ⟨t, List.mem_of_find?_eq_some hf, ?_⟩
          have := List.find?_some hf
          simpa [tokenEligible] using this

theorem matchProfile_snd_of_false (profileId : String) (p : Profile) (m : Option AccessToken)
    (h : (matchProfile profileId p m).1 = false) : (matchProfile profileId p m).2 = m := by
  unfold matchProfile at h ⊢
  by_cases h1 : (p.id == profileId) = true
  · simp [h1] at h
  · by_cases h2 : (truthy p.customId && p.customId == some profileId) = true
    · simp [h1, h2] at h
    · simp only [h1, h2, Bool.false_eq_true, if_false] at h ⊢
      cases ht : p.accessTokens with
      | none => rfl
      | some tokens =>
        cases hf : tokens.find? (tokenEligible profileId) with
        | none => simp [hf]
        | some t => simp [ht, hf] at h

theorem findProfile_eq (profileId : String) (ps : List Profile) (m : Option AccessToken) :
    findProfile profileId ps m =
      match ps.find? (matchesIdentifier profileId) with
      | some p => (some p, (matchProfile profileId p m).2)
      | none => (none, m) := by
  induction ps with
  | nil => rfl
  | cons p rest ih =>
    unfold findProfile
    have h1 := matchProfile_fst profileId p m
    cases hm : matchProfile profileId p m with
    | mk b m' =>
      rw [hm] at h1
      simp only at h1
      cases b with
      | true =>
        simp only [List.find?_cons, ← h1, hm]
      | false =>
        have h2 := matchProfile_snd_of_false profileId p m (by rw [hm])
        rw [hm] at h2
        simp only at h2
        subst h2
        simp only [List.find?_cons, ← h1]
        exact ih

theorem resolveCredential_eq (env : Env) (profileId : String) :
    resolveCredential env profileId =
      match (allProfiles env).find? (matchesIdentifier profileId) with
      | some p => (some p, (matchProfile profileId p none).2)
      | none => (none, none) :=
  findProfile_eq profileId (allProfiles env) none

theorem resolveCredential_fst (env : Env) (profileId : String) :
    (resolveCredential env profileId).1 = (allProfiles env).find? (matchesIdentifier profileId) := by
  rw [resolveCredential_eq]
  cases (allProfiles env).find? (matchesIdentifier profileId) <;> rfl

theorem handleProfileMode_of_no_profile (env : Env) (profileId userAgent : String)
    (applyTransform : Bool) (h : (resolveCredential env profileId).1 = none) :
    handleProfileMode env profileId userAgent applyTransform =
      .jsonResponse "订阅组不存在或已禁用" 404 := by
  unfold handleProfileMode accessGate
  rw [h]

/-- The token context left by the callback when it is entered with no context:
none when rule (1) or (2) holds, else the first eligible token. -/
theorem matchProfile_snd_none (profileId : String) (p : Profile) :
    (matchProfile profileId p none).2 =
      if matchesById profileId p then none
      else (p.accessTokens.getD []).find? (tokenEligible profileId) := by
  unfold matchProfile matchesById
  rw [customId_rule]
  by_cases h1 : (p.id == profileId) = true
  · simp [h1]
  · by_cases h2 : (match p.customId with
        | some c => c != "" && c == profileId
        | none => false) = true
    · simp [h1, h2]
    · simp only [h1, h2, Bool.false_eq_true, if_false, Bool.false_or, Bool.not_eq_true]
      cases ht : p.accessTokens with
      | none => simp
      | some tokens =>
        cases hf : tokens.find? (tokenEligible profileId) with
        | none => simp [hf]
        | some t => simp [hf]

/-- C1. Credential resolution: the resolved profile is the first profile, in
collection order, that satisfies one of the three rules (id equal to the
identifier; customId present and equal to it; an access token equal to it whose
`enabled` is not false), and when no profile satisfies a rule the handler
returns the not-found response with status 404. -/
theorem resolveCredential_first_match (env : Env) (profileId : String) :
    (resolveCredential env profileId).1 =
        (allProfiles env).find? (matchesIdentifier profileId) ∧
      ((∀ p ∈ allProfiles env, matchesIdentifier profileId p = false) →
        ∀ (userAgent : String) (applyTransform : Bool),
          handleProfileMode env profileId userAgent applyTransform =
            .jsonResponse "订阅组不存在或已禁用" 404) := by
  refine ⟨resolveCredential_fst env profileId, ?_⟩
  intro h userAgent applyTransform
  apply handleProfileMode_of_no_profile
  rw [resolveCredential_fst, List.find?_eq_none]
  intro p hp
  simp [h p hp]

theorem resolveCredential_first_match_witness :
    (resolveCredential sampleEnv "tk-live").1 = some profBeta ∧
      handleProfileMode sampleEnv "nobody" "clash" false =
        .jsonResponse "订阅组不存在或已禁用" 404 :=
  ⟨(resolveCredential_first_match sampleEnv "tk-live").1.trans (by decide),
    (resolveCredential_first_match sampleEnv "nobody").2 (by decide) "clash" false⟩

/-- C2. Precedence primary-id > legacy-id > token: for a resolved profile the
token context is present exactly when neither the profile's id nor its present
customId equals the identifier; when present it is the first record of that
profile's accessTokens whose token equals the identifier and whose `enabled` is
not false; and an identifier that equals the id or customId resolves with no
token context, so the expiration in force is the profile's own. -/
theorem token_context_precedence (env : Env) (profileId : String) (p : Profile)
    (tok : Option AccessToken) (h : resolveCredential env profileId = (some p, tok)) :
    (tok.isSome = true ↔
        ¬ p.id = profileId ∧ ¬ (∃ c, p.customId = some c ∧ c ≠ "" ∧ c = profileId)) ∧
      (∀ t, tok = some t →
        ∃ tokens, p.accessTokens = some tokens ∧
          tokens.find? (fun t => t.token == profileId && t.enabled != some false) = some t) ∧
      ((p.id = profileId ∨ ∃ c, p.customId = some c ∧ c ≠ "" ∧ c = profileId) →
        tok = none ∧ effectiveExpiresAt p tok = p.expiresAt) := by
  have hmatch : matchesIdentifier profileId p = true ∧
      tok = (matchProfile profileId p none).2 := by
    rw [resolveCredential_eq] at h
    cases hf : (allProfiles env).find? (matchesIdentifier profileId) with
    | none => simp [hf] at h
    | some q =>
      simp only [hf, Prod.mk.injEq, Option.some.injEq] at h
      obtain ⟨rfl, rfl⟩ := h
      exact ⟨List.find?_some hf, rfl⟩
  obtain ⟨hm, htok⟩ := hmatch
  rw [matchProfile_snd_none] at htok
  have hby : matchesById profileId p = true ↔
      (p.id = profileId ∨ ∃ c, p.customId = some c ∧ c ≠ "" ∧ c = profileId) := by
    unfold matchesById
    cases hc : p.customId with
    | none => simp
    | some c => simp
  have hrule3 : matchesById profileId p = false →
      ∃ t, (p.accessTokens.getD []).find? (tokenEligible profileId) = some t := by
    intro hb
    unfold matchesIdentifier at hm
    unfold matchesById at hb
    rw [hb, Bool.false_or] at hm
    cases ht : p.accessTokens with
    | none => simp [ht] at hm
    | some tokens =>
      rw [ht] at hm
      simp only [List.any_eq_true] at hm
      obtain ⟨t, htm, hte⟩ := hm
      have : (tokens.find? (tokenEligible profileId)).isSome = true := by
        rw [List.find?_isSome]
        exact ⟨t, htm, hte⟩
      obtain ⟨u, hu⟩ := Option.isSome_iff_exists.mp this
      exact ⟨u, by simpa using hu⟩
  by_cases hb : matchesById profileId p = true
  · have htn : tok = none := by simp [htok, hb]
    refine ⟨?_, ?_, ?_⟩
    · rw [htn]
      constructor
      · intro h0
        simp at h0
      · rintro ⟨h1, h2⟩
        rcases hby.mp hb with h3 | h3
        · exact absurd h3 h1
        · exact absurd h3 h2
    · intro t ht
      rw [htn] at ht
      simp at ht
    · intro _
      exact ⟨htn, by rw [htn]; rfl⟩
  · have hb' : matchesById profileId p = false := by simpa using hb
    obtain ⟨t, ht⟩ := hrule3 hb'
    have hts : tok = some t := by simp [htok, hb', ht]
    refine ⟨?_, ?_, ?_⟩
    · rw [hts]
      constructor
      · intro _
        constructor
        · intro h1
          exact hb (hby.mpr (Or.inl h1))
        · intro h2
          exact hb (hby.mpr (Or.inr h2))
      · intro _
        rfl
    · intro u hu
      rw [hts] at hu
      cases hu
      cases hat : p.accessTokens with
      | none => simp [hat] at ht
      | some tokens =>
        refine ⟨tokens, rfl, ?_⟩
        simpa [hat, tokenEligible] using ht
    · intro h3
      exact absurd (hby.mpr h3) hb

theorem token_context_precedence_witness :
    resolveCredential sampleEnv "beta" = (some profBeta, none) ∧
      effectiveExpiresAt profBeta none = profBeta.expiresAt ∧
      tokSelf ∈ [tokLive, tokSelf] ∧ tokenEligible "beta" tokSelf = true :=
  ⟨by decide,
    ((token_context_precedence sampleEnv "beta" profBeta none (by decide)).2.2
      (Or.inl (by decide))).2,
    by decide, by decide⟩

/-! ## The expired placeholder -/

theorem quoteJSONChar_high (c : Char) (hc : 255 < c.toNat) : quoteJSONChar c = [c] := by
  unfold quoteJSONChar
  have h1 : ¬ c.toNat = 34 := by omega
  have h2 : ¬ c.toNat = 92 := by omega
  have h3 : ¬ c.toNat = 8 := by omega
  have h4 : ¬ c.toNat = 12 := by omega
  have h5 : ¬ c.toNat = 10 := by omega
  have h6 : ¬ c.toNat = 13 := by omega
  have h7 : ¬ c.toNat = 9 := by omega
  have h8 : ¬ c.toNat < 32 := by omega
  simp only [h1, h2, h3, h4, h5, h6, h7, h8, if_false]

theorem mem_quoteJSONString_of_high (s : String) (c : Char) (hc : 255 < c.toNat)
    (hmem : c ∈ s.toList) : c ∈ quoteJSONString s := by
  unfold quoteJSONString
  simp only [List.mem_append, List.mem_flatten, List.mem_map]
  left; right
  exact ⟨[c], ⟨c, hmem, quoteJSONChar_high c hc⟩, List.mem_singleton.mpr rfl⟩

theorem mem_stringifyFields (k v : String) (c : Char) (hc : c ∈ quoteJSONString v) :
    ∀ fields : List (String × String), (k, v) ∈ fields → c ∈ stringifyFields fields
  | [], h => by simp at h
  | [(k', v')], h => by
    simp only [List.mem_singleton, Prod.mk.injEq] at h
    obtain ⟨rfl, rfl⟩ := h
    simp [stringifyFields, hc]
  | (k', v') :: f :: rest, h => by
    rw [stringifyFields]
    · rcases List.mem_cons.mp h with h | h
      · simp only [Prod.mk.injEq] at h
        obtain ⟨rfl, rfl⟩ := h
        simp [hc]
      · have := mem_stringifyFields k v c hc (f :: rest) h
        simp [this]
    · intro hab
      cases hab

theorem btoa_of_high (s : String) (c : Char) (hc : 255 < c.toNat) (hmem : c ∈ s.toList) :
    btoa s = .error "InvalidCharacterError" := by
  unfold btoa
  have : s.toList.any (fun c => decide (255 < c.toNat)) = true := by
    rw [List.any_eq_true]
    exact ⟨c, hmem, by simpa using hc⟩
  rw [if_pos this]

theorem generateExpiredNode_throws (message : String) :
    generateExpiredNode message = .error "InvalidCharacterError" := by
  unfold generateExpiredNode generateExpiredNodeWith
  have hmem : '提' ∈ ("[提示] " ++ message).toList := by
    simp [String.toList]
  have hq := mem_quoteJSONString_of_high _ '提' (by decide) hmem
  have hs := mem_stringifyFields "ps" _ _ hq
    [("v", "2"), ("ps", "[提示] " ++ message), ("add", "127.0.0.1"), ("port", "80"),
       ("id", "00000000-0000-0000-0000-000000000000"), ("aid", "0"), ("scy", "auto"),
       ("net", "tcp"), ("type", "none"), ("host", ""), ("path", ""), ("tls", "")]
    (by simp)
  have hb := btoa_of_high (jsonStringify
      [("v", "2"), ("ps", "[提示] " ++ message), ("add", "127.0.0.1"), ("port", "80"),
       ("id", "00000000-0000-0000-0000-000000000000"), ("aid", "0"), ("scy", "auto"),
       ("net", "tcp"), ("type", "none"), ("host", ""), ("path", ""), ("tls", "")]) '提' (by decide)
    (by
      unfold jsonStringify
      simp only [String.toList, List.mem_append, List.mem_cons]
      left; right; exact hs)
  simp only [hb]

/-! ## Access gate -/

theorem accessGate_of_found (env : Env) (p : Profile) (tok : Option AccessToken) :
    accessGate env (some p, tok) =
      if p.enabled = false then .denied
      else if isExpired env (effectiveExpiresAt p tok) then
        .expired ((effectiveExpiresAt p tok).getD "")
      else .active p := by
  cases hen : p.enabled <;> simp [accessGate, hen]

theorem isExpired_iff (env : Env) (expiresAt : Option String) :
    isExpired env expiresAt = true ↔
      ∃ e, expiresAt = some e ∧ e ≠ "" ∧ ∃ d, env.parseDate e = some d ∧ d < env.now := by
  unfold isExpired
  cases expiresAt with
  | none => simp [truthy]
  | some e =>
    cases hd : env.parseDate e with
    | none => simp [truthy, hd]
    | some d => simp [truthy, hd]

theorem handleProfileMode_of_expired (env : Env) (profileId userAgent : String)
    (applyTransform : Bool) (e : String)
    (h : accessGate env (resolveCredential env profileId) = .expired e) :
    handleProfileMode env profileId userAgent applyTransform = expiredOutcome e := by
  unfold handleProfileMode
  rw [h]

theorem handleProfileMode_of_active (env : Env) (profileId userAgent : String)
    (applyTransform : Bool) (p : Profile)
    (h : accessGate env (resolveCredential env profileId) = .active p) :
    handleProfileMode env profileId userAgent applyTransform =
      .result (aggregate env p userAgent applyTransform) := by
  unfold handleProfileMode
  rw [h]

theorem accessGate_expired_iff (env : Env) (p : Profile) (tok : Option AccessToken)
    (hen : p.enabled = true) (e : String) :
    accessGate env (some p, tok) = .expired e ↔
      effectiveExpiresAt p tok = some e ∧ e ≠ "" ∧
        ∃ d, env.parseDate e = some d ∧ d < env.now := by
  rw [accessGate_of_found]
  simp only [hen, Bool.true_eq_false, if_false]
  by_cases hx : isExpired env (effectiveExpiresAt p tok) = true
  · rw [if_pos hx]
    obtain ⟨e', he', hne, d, hd, hlt⟩ := (isExpired_iff env _).mp hx
    rw [he']
    simp only [Option.getD_some, Gate.expired.injEq, Option.some.injEq]
    constructor
    · rintro rfl
      exact ⟨rfl, hne, d, hd, hlt⟩
    · rintro ⟨h1, _⟩
      exact h1
  · rw [if_neg hx]
    constructor
    · intro h
      cases h
    · rintro ⟨h1, h2, h3⟩
      exact absurd ((isExpired_iff env _).mpr ⟨e, h1, h2, h3⟩) hx

theorem accessGate_active_of_not_expired (env : Env) (p : Profile) (tok : Option AccessToken)
    (hen : p.enabled = true) (hx : isExpired env (effectiveExpiresAt p tok) = false) :
    accessGate env (some p, tok) = .active p := by
  rw [accessGate_of_found]
  simp [hen, hx]

/-- C3. A token-level expiresAt overrides the profile-level one: when the match
was via a token whose expiresAt is set, the expiration in force is the token's
whatever the profile's own expiresAt is, a past token date gives the expired
branch and a token date not in the past gives the aggregation; with no token
context, or a token without expiresAt, the profile's expiresAt is in force. -/
theorem token_expiry_overrides (env : Env) (profileId userAgent : String)
    (applyTransform : Bool) (p : Profile) (tok : Option AccessToken)
    (h : resolveCredential env profileId = (some p, tok)) (hen : p.enabled = true) :
    (∀ t te, tok = some t → t.expiresAt = some te → te ≠ "" →
        (∀ own, effectiveExpiresAt { p with expiresAt := own } tok = some te) ∧
        (∀ d, env.parseDate te = some d → d < env.now →
          accessGate env (resolveCredential env profileId) = .expired te ∧
          handleProfileMode env profileId userAgent applyTransform = expiredOutcome te) ∧
        (∀ d, env.parseDate te = some d → env.now ≤ d →
          accessGate env (resolveCredential env profileId) = .active p ∧
          handleProfileMode env profileId userAgent applyTransform =
            .result (aggregate env p userAgent applyTransform))) ∧
      ((tok = none ∨ ∃ t, tok = some t ∧ truthy t.expiresAt = false) →
        effectiveExpiresAt p tok = p.expiresAt ∧
        accessGate env (resolveCredential env profileId) =
          if isExpired env p.expiresAt then .expired (p.expiresAt.getD "") else .active p) := by
  constructor
  · intro t te htok hte hne
    have heff : ∀ own, effectiveExpiresAt { p with expiresAt := own } tok = some te := by
      intro own
      subst htok
      simp [effectiveExpiresAt, hte, truthy, hne]
    have heffp : effectiveExpiresAt p tok = some te := heff p.expiresAt
    refine ⟨heff, ?_, ?_⟩
    · intro d hd hlt
      have hg : accessGate env (resolveCredential env profileId) = .expired te := by
        rw [h]
        exact (accessGate_expired_iff env p tok hen te).mpr ⟨heffp, hne, d, hd, hlt⟩
      exact ⟨hg, handleProfileMode_of_expired env profileId userAgent applyTransform te hg⟩
    · intro d hd hle
      have hx : isExpired env (effectiveExpiresAt p tok) = false := by
        rw [heffp]
        cases hb : isExpired env (some te) with
        | false => rfl
        | true =>
          obtain ⟨e', he', _, d', hd', hlt⟩ := (isExpired_iff env _).mp hb
          cases he'
          rw [hd] at hd'
          cases hd'
          omega
      have hg : accessGate env (resolveCredential env profileId) = .active p := by
        rw [h]
        exact accessGate_active_of_not_expired env p tok hen hx
      exact ⟨hg, handleProfileMode_of_active env profileId userAgent applyTransform p hg⟩
  · intro hcase
    have heff : effectiveExpiresAt p tok = p.expiresAt := by
      rcases hcase with rfl | ⟨t, rfl, ht⟩
      · rfl
      · simp [effectiveExpiresAt, ht]
    refine ⟨heff, ?_⟩
    rw [h, accessGate_of_found, heff]
    simp [hen]

theorem token_expiry_overrides_witness :
    (accessGate sampleEnv (resolveCredential sampleEnv "tk-live") = .active profBeta ∧
      profBeta.expiresAt = some "2020-01-01") ∧
    (accessGate sampleEnv (resolveCredential sampleEnv "tk-dead") = .expired "2020-01-01" ∧
      profAlpha.expiresAt = none) :=
  ⟨⟨(((token_expiry_overrides sampleEnv "tk-live" "clash" false profBeta (some tokLive)
        (by decide) (by decide)).1 tokLive "2099-01-01" rfl rfl (by decide)).2.2
        4070908800000 (by decide) (by decide)).1, rfl⟩,
    ⟨(((token_expiry_overrides sampleEnv "tk-dead" "clash" false profAlpha (some tokDead)
        (by decide) (by decide)).1 tokDead "2020-01-01" rfl rfl (by decide)).2.1
        1577836800000 (by decide) (by decide)).1, rfl⟩⟩

/-- C4. Access gate decision: for a resolved, enabled profile the expired branch
is taken exactly when the effective expiration is set, parses to a valid date and
that date is strictly before the current time; hence no effective expiration, an
unparsable expiration and an expiration equal to the current time all let the
request through to the aggregation. -/
theorem access_gate_decision (env : Env) (profileId : String) (p : Profile)
    (tok : Option AccessToken) (h : resolveCredential env profileId = (some p, tok))
    (hen : p.enabled = true) :
    (∀ e, accessGate env (resolveCredential env profileId) = .expired e ↔
        effectiveExpiresAt p tok = some e ∧ e ≠ "" ∧
          ∃ d, env.parseDate e = some d ∧ d < env.now) ∧
      ((¬ ∃ e, effectiveExpiresAt p tok = some e ∧ e ≠ "" ∧
            ∃ d, env.parseDate e = some d ∧ d < env.now) →
        accessGate env (resolveCredential env profileId) = .active p) ∧
      (truthy (effectiveExpiresAt p tok) = false →
        accessGate env (resolveCredential env profileId) = .active p) ∧
      (∀ e, effectiveExpiresAt p tok = some e → env.parseDate e = none →
        accessGate env (resolveCredential env profileId) = .active p) ∧
      (∀ e, effectiveExpiresAt p tok = some e → env.parseDate e = some env.now →
        accessGate env (resolveCredential env profileId) = .active p) ∧
      (∀ e userAgent applyTransform,
        accessGate env (resolveCredential env profileId) = .expired e →
          handleProfileMode env profileId userAgent applyTransform = expiredOutcome e) := by
  have hactive : (¬ ∃ e, effectiveExpiresAt p tok = some e ∧ e ≠ "" ∧
      ∃ d, env.parseDate e = some d ∧ d < env.now) →
      accessGate env (resolveCredential env profileId) = .active p := by
    intro hno
    rw [h]
    apply accessGate_active_of_not_expired env p tok hen
    cases hb : isExpired env (effectiveExpiresAt p tok) with
    | false => rfl
    | true => exact absurd ((isExpired_iff env _).mp hb) hno
  refine ⟨?_, hactive, ?_, ?_, ?_, ?_⟩
  · intro e
    rw [h]
    exact accessGate_expired_iff env p tok hen e
  · intro hf
    apply hactive
    rintro ⟨e, he, hne, _⟩
    rw [he] at hf
    simp [truthy, hne] at hf
  · intro e he hnone
    apply hactive
    rintro ⟨e', he', _, d, hd, _⟩
    rw [he] at he'
    cases he'
    rw [hnone] at hd
    cases hd
  · intro e he hnow
    apply hactive
    rintro ⟨e', he', _, d, hd, hlt⟩
    rw [he] at he'
    cases he'
    rw [hnow] at hd
    cases hd
    omega
  · intro e userAgent applyTransform hg
    exact handleProfileMode_of_expired env profileId userAgent applyTransform e hg

theorem access_gate_decision_witness :
    accessGate sampleEnv (resolveCredential sampleEnv "beta") = .expired "2020-01-01" ∧
      accessGate sampleEnv (resolveCredential sampleEnv "alpha") = .active profAlpha :=
  ⟨((access_gate_decision sampleEnv "beta" profBeta none (by decide) (by decide)).1
      "2020-01-01").mpr ⟨by decide, by decide, 1577836800000, by decide, by decide⟩,
    (access_gate_decision sampleEnv "alpha" profAlpha none (by decide) (by decide)).2.2.1
      (by decide)⟩

theorem expiredOutcome_throws (e : String) :
    expiredOutcome e = .thrown "InvalidCharacterError" := by
  have h := generateExpiredNode_throws ("此订阅链接已于 " ++ e ++ " 到期，请联系管理员。")
  unfold generateExpiredNode at h
  unfold expiredOutcome expiredOutcomeWith
  rw [h]

/-- C5. Expired result shape, evaluated on the code: for the enabled profile
"beta", whose own expiresAt "2020-01-01" is in the past, the gate decides
EXPIRED and the handler does not return the one-node result: building the
placeholder throws InvalidCharacterError, because `btoa` is applied to a string
that contains the non-Latin1 characters of the node name. -/
theorem expired_request_throws :
    accessGate sampleEnv (resolveCredential sampleEnv "beta") = .expired "2020-01-01" ∧
      handleProfileMode sampleEnv "beta" "clash" false = .thrown "InvalidCharacterError" ∧
      (∀ message, generateExpiredNode message = .error "InvalidCharacterError") :=
  ⟨by decide, by decide, generateExpiredNode_throws⟩

theorem expiredOutcome_ne_jsonResponse (e err : String) (status : Nat) :
    expiredOutcome e ≠ .jsonResponse err status := by
  rw [expiredOutcome_throws]
  intro h
  cases h

theorem accessGate_denied_iff (env : Env) (found : Option Profile × Option AccessToken) :
    accessGate env found = .denied ↔
      found.1 = none ∨ ∃ p, found.1 = some p ∧ p.enabled = false := by
  obtain ⟨fp, tok⟩ := found
  cases fp with
  | none => simp [accessGate]
  | some p =>
    rw [accessGate_of_found]
    cases hen : p.enabled with
    | false => simp [hen]
    | true =>
      simp only [Bool.true_eq_false, if_false]
      split <;> simp [hen]

theorem handleProfileMode_jsonResponse_iff (env : Env) (profileId userAgent : String)
    (applyTransform : Bool) (err : String) (status : Nat) :
    handleProfileMode env profileId userAgent applyTransform = .jsonResponse err status ↔
      accessGate env (resolveCredential env profileId) = .denied ∧
        err = "订阅组不存在或已禁用" ∧ status = 404 := by
  unfold handleProfileMode
  cases hg : accessGate env (resolveCredential env profileId) with
  | denied =>
    simp only [Outcome.jsonResponse.injEq, true_and]
    constructor
    · rintro ⟨h1, h2⟩
      exact ⟨h1.symm, h2.symm⟩
    · rintro ⟨h1, h2⟩
      exact ⟨h1.symm, h2.symm⟩
  | expired e =>
    simp only [false_and, iff_false, reduceCtorEq]
    exact expiredOutcome_ne_jsonResponse e err status
  | active p => simp

/-- C6. Denied access: the handler returns the not-found/disabled response
(status 404, an error message and nothing else) exactly when no profile matches
the identifier or the first matching profile has `enabled` false; it returns no
other error response; and the denial comes before the expiration check, so a
disabled profile is denied also when its effective expiration is in the past. -/
theorem denied_iff_absent_or_disabled (env : Env) (profileId userAgent : String)
    (applyTransform : Bool) :
    (handleProfileMode env profileId userAgent applyTransform =
          .jsonResponse "订阅组不存在或已禁用" 404 ↔
        ((allProfiles env).find? (matchesIdentifier profileId) = none ∨
          ∃ p, (allProfiles env).find? (matchesIdentifier profileId) = some p ∧
            p.enabled = false)) ∧
      (∀ err status,
        handleProfileMode env profileId userAgent applyTransform = .jsonResponse err status →
          err = "订阅组不存在或已禁用" ∧ status = 404 ∧
            ∀ r, handleProfileMode env profileId userAgent applyTransform ≠ .result r) ∧
      (∀ p tok, resolveCredential env profileId = (some p, tok) → p.enabled = false →
        isExpired env (effectiveExpiresAt p tok) = true →
          handleProfileMode env profileId userAgent applyTransform =
            .jsonResponse "订阅组不存在或已禁用" 404) := by
  refine ⟨?_, ?_, ?_⟩
  · rw [handleProfileMode_jsonResponse_iff, accessGate_denied_iff, resolveCredential_fst]
    simp
  · intro err status h
    have h' := (handleProfileMode_jsonResponse_iff env profileId userAgent applyTransform
      err status).mp h
    refine ⟨h'.2.1, h'.2.2, ?_⟩
    intro r hr
    rw [h] at hr
    cases hr
  · intro p tok hres hen _
    rw [handleProfileMode_jsonResponse_iff, accessGate_denied_iff, hres]
    exact ⟨Or.inr ⟨p, rfl, hen⟩, rfl, rfl⟩

theorem denied_iff_absent_or_disabled_witness :
    handleProfileMode sampleEnv "gamma" "clash" true = .jsonResponse "订阅组不存在或已禁用" 404 ∧
      handleProfileMode sampleEnv "tk-off" "clash" true =
        .jsonResponse "订阅组不存在或已禁用" 404 :=
  ⟨(denied_iff_absent_or_disabled sampleEnv "gamma" "clash" true).2.2 profGamma none
      (by decide) (by decide) (by decide),
    (denied_iff_absent_or_disabled sampleEnv "tk-off" "clash" true).1.mpr
      (Or.inl (by decide))⟩

/-! ## Source merger -/

theorem mapGet_mapSet (key : String) (value : Source) (k : String) :
    ∀ m : List (String × Source),
      mapGet (mapSet key value m) k = if key == k then some value else mapGet m k
  | [] => by
    by_cases h : (key == k) = true <;> simp [mapSet, mapGet, h]
  | (k', v') :: rest => by
    have ih := mapGet_mapSet key value k rest
    unfold mapSet
    by_cases h1 : (k' == key) = true
    · have hk : k' = key := by simpa using h1
      subst hk
      rw [if_pos h1]
      by_cases h2 : (k' == k) = true
      · simp [mapGet, h2]
      · simp [mapGet, h2]
    · rw [if_neg h1]
      by_cases h2 : (k' == k) = true
      · have hk : k' = k := by simpa using h2
        subst hk
        have h3 : ¬ (key == k') = true := by
          intro h
          apply h1
          have : key = k' := by simpa using h
          simp [this]
        simp [mapGet, h3]
      · unfold mapGet at ih ⊢
        simp only [List.find?_cons, h2]
        exact ih

theorem mapGet_foldl (k : String) :
    ∀ (entries : List (String × Source)) (m : List (String × Source)),
      mapGet (entries.foldl (fun m e => mapSet e.1 e.2 m) m) k =
        match entries.reverse.find? (fun e => e.1 == k) with
        | some e => some e.2
        | none => mapGet m k
  | [], m => by simp
  | e :: rest, m => by
    rw [List.foldl_cons, mapGet_foldl k rest (mapSet e.1 e.2 m)]
    simp only [List.reverse_cons, List.find?_append]
    cases hf : rest.reverse.find? (fun e => e.1 == k) with
    | some e' => simp
    | none =>
      simp only [Option.none_or, List.find?_cons, List.find?_nil]
      rw [mapGet_mapSet]
      by_cases h : (e.1 == k) = true <;> simp [h]

theorem mapGet_newMap (entries : List (String × Source)) (k : String) :
    mapGet (newMap entries) k = (entries.reverse.find? (fun e => e.1 == k)).map (fun e => e.2) := by
  unfold newMap
  rw [mapGet_foldl]
  cases entries.reverse.find? (fun e => e.1 == k) <;> simp [mapGet]

theorem mapGet_misubMap (env : Env) (id : String) :
    mapGet (misubMap env) id = (allSubscriptions env).reverse.find? (fun s => s.id == id) := by
  unfold misubMap
  rw [mapGet_newMap, ← List.map_reverse, List.find?_map]
  simp only [Option.map_map]
  have : ((fun e : String × Source => e.2) ∘ fun item : Source => (item.id, item)) =
      fun x => x := by
    funext x; rfl
  rw [this, Option.map_id']
  rfl

theorem mapGet_misubMap_some (env : Env) (id : String) (s : Source)
    (h : mapGet (misubMap env) id = some s) : s ∈ allSubscriptions env ∧ s.id = id := by
  rw [mapGet_misubMap] at h
  have h1 := List.mem_of_find?_eq_some h
  have h2 := List.find?_some h
  exact ⟨List.mem_reverse.mp h1, by simpa using h2⟩

theorem pushSubscriptions_eq (env : Env) :
    ∀ (ids : List String) (acc : List Source),
      pushSubscriptions (misubMap env) ids acc = acc ++ ids.filterMap (subscriptionFor env)
  | [], acc => by simp [pushSubscriptions]
  | id :: rest, acc => by
    have ih := pushSubscriptions_eq env rest
    unfold pushSubscriptions at ih ⊢
    rw [List.foldl_cons, ih]
    simp only [List.filterMap_cons, subscriptionFor]
    cases hg : mapGet (misubMap env) id with
    | none => simp
    | some sub =>
      by_cases hc : (sub.enabled && startsWith sub.url "http") = true
      · simp [hc, Option.filter]
      · simp [hc, Option.filter]

theorem pushManualNodes_eq (env : Env) :
    ∀ (ids : List String) (acc : List Source),
      pushManualNodes (misubMap env) ids acc = acc ++ ids.filterMap (manualNodeFor env)
  | [], acc => by simp [pushManualNodes]
  | id :: rest, acc => by
    have ih := pushManualNodes_eq env rest
    unfold pushManualNodes at ih ⊢
    rw [List.foldl_cons, ih]
    simp only [List.filterMap_cons, manualNodeFor]
    cases hg : mapGet (misubMap env) id with
    | none => simp
    | some node =>
      by_cases hc : (node.enabled && !startsWith node.url "http") = true
      · simp [hc, Option.filter]
      · simp [hc, Option.filter]

theorem targetMisubs_eq (env : Env) (profile : Profile) :
    targetMisubs env profile = mergedSubscriptions env profile ++ mergedManualNodes env profile := by
  unfold targetMisubs mergedSubscriptions mergedManualNodes
  cases profile.subscriptions <;> cases profile.manualNodes <;>
    simp [pushSubscriptions_eq, pushManualNodes_eq]

theorem subscriptionFor_some (env : Env) (id : String) (s : Source)
    (h : subscriptionFor env id = some s) :
    s ∈ allSubscriptions env ∧ s.id = id ∧ s.enabled = true ∧ startsWith s.url "http" = true := by
  unfold subscriptionFor at h
  cases hg : mapGet (misubMap env) id with
  | none => simp [hg] at h
  | some s' =>
    rw [hg] at h
    by_cases hc : (s'.enabled && startsWith s'.url "http") = true
    · simp only [Option.filter, hc, if_true, Option.some.injEq] at h
      subst h
      obtain ⟨h1, h2⟩ := mapGet_misubMap_some env id s' hg
      simp only [Bool.and_eq_true] at hc
      exact ⟨h1, h2, hc.1, hc.2⟩
    · simp [Option.filter, hc] at h

theorem manualNodeFor_some (env : Env) (id : String) (s : Source)
    (h : manualNodeFor env id = some s) :
    s ∈ allSubscriptions env ∧ s.id = id ∧ s.enabled = true ∧ startsWith s.url "http" = false := by
  unfold manualNodeFor at h
  cases hg : mapGet (misubMap env) id with
  | none => simp [hg] at h
  | some s' =>
    rw [hg] at h
    by_cases hc : (s'.enabled && !startsWith s'.url "http") = true
    · simp only [Option.filter, hc, if_true, Option.some.injEq] at h
      subst h
      obtain ⟨h1, h2⟩ := mapGet_misubMap_some env id s' hg
      simp only [Bool.and_eq_true, Bool.not_eq_true'] at hc
      exact ⟨h1, h2, hc.1, hc.2⟩
    · simp [Option.filter, hc] at h

theorem targetSubscriptions_eq (env : Env) (profile : Profile) :
    targetSubscriptions env profile = mergedSubscriptions env profile := by
  unfold targetSubscriptions
  rw [targetMisubs_eq, List.filter_append]
  have h1 : (mergedSubscriptions env profile).filter (fun item => startsWith item.url "http") =
      mergedSubscriptions env profile := by
    rw [List.filter_eq_self]
    intro s hs
    unfold mergedSubscriptions at hs
    obtain ⟨id, _, hid⟩ := List.mem_filterMap.mp hs
    exact (subscriptionFor_some env id s hid).2.2.2
  have h2 : (mergedManualNodes env profile).filter (fun item => startsWith item.url "http") = [] := by
    rw [List.filter_eq_nil_iff]
    intro s hs
    unfold mergedManualNodes at hs
    obtain ⟨id, _, hid⟩ := List.mem_filterMap.mp hs
    simp [(manualNodeFor_some env id s hid).2.2.2]
  rw [h1, h2, List.append_nil]

theorem targetManualNodes_eq (env : Env) (profile : Profile) :
    targetManualNodes env profile = mergedManualNodes env profile := by
  unfold targetManualNodes
  rw [targetMisubs_eq, List.filter_append]
  have h1 : (mergedSubscriptions env profile).filter (fun item => !startsWith item.url "http") =
      [] := by
    rw [List.filter_eq_nil_iff]
    intro s hs
    unfold mergedSubscriptions at hs
    obtain ⟨id, _, hid⟩ := List.mem_filterMap.mp hs
    simp [(subscriptionFor_some env id s hid).2.2.2]
  have h2 : (mergedManualNodes env profile).filter (fun item => !startsWith item.url "http") =
      mergedManualNodes env profile := by
    rw [List.filter_eq_self]
    intro s hs
    unfold mergedManualNodes at hs
    obtain ⟨id, _, hid⟩ := List.mem_filterMap.mp hs
    simp [(manualNodeFor_some env id s hid).2.2.2]
  rw [h1, h2, List.nil_append]

theorem map_id_filterMap_sublist (f : String → Option Source)
    (hf : ∀ id s, f id = some s → s.id = id) :
    ∀ ids : List String, ((ids.filterMap f).map (fun s => s.id)).Sublist ids
  | [] => by simp
  | id :: rest => by
    have ih := map_id_filterMap_sublist f hf rest
    rw [List.filterMap_cons]
    cases h : f id with
    | none => exact List.Sublist.cons id ih
    | some s =>
      simp only [List.map_cons]
      rw [hf id s h]
      exact List.Sublist.cons₂ id ih

/-- C7. Source Merger: after the re-partition the target subscriptions are exactly
the profile's `subscriptions` ids, in declared order, mapped to their sources and
restricted to the ids that are found, enabled and HTTP-prefixed, and the target
manual nodes are exactly the `manualNodes` ids, in declared order, restricted to
the ids that are found, enabled and not HTTP-prefixed; every member is an enabled
source of the collection of the right kind, and the ids of each output form a
sub-sequence of the declared list. -/
theorem source_merger_refines (env : Env) (profile : Profile) :
    targetSubscriptions env profile = mergedSubscriptions env profile ∧
      targetManualNodes env profile = mergedManualNodes env profile ∧
      targetMisubs env profile =
        targetSubscriptions env profile ++ targetManualNodes env profile ∧
      (∀ s ∈ targetSubscriptions env profile,
        s ∈ allSubscriptions env ∧ s.enabled = true ∧ startsWith s.url "http" = true ∧
          s.id ∈ profile.subscriptions.getD []) ∧
      (∀ s ∈ targetManualNodes env profile,
        s ∈ allSubscriptions env ∧ s.enabled = true ∧ startsWith s.url "http" = false ∧
          s.id ∈ profile.manualNodes.getD []) ∧
      ((targetSubscriptions env profile).map (fun s => s.id)).Sublist
        (profile.subscriptions.getD []) ∧
      ((targetManualNodes env profile).map (fun s => s.id)).Sublist
        (profile.manualNodes.getD []) := by
  refine ⟨targetSubscriptions_eq env profile, targetManualNodes_eq env profile, ?_, ?_, ?_, ?_, ?_⟩
  · rw [targetSubscriptions_eq, targetManualNodes_eq, targetMisubs_eq]
  · intro s hs
    rw [targetSubscriptions_eq] at hs
    unfold mergedSubscriptions at hs
    obtain ⟨id, hid, hsome⟩ := List.mem_filterMap.mp hs
    obtain ⟨h1, h2, h3, h4⟩ := subscriptionFor_some env id s hsome
    exact ⟨h1, h3, h4, by rw [h2]; exact hid⟩
  · intro s hs
    rw [targetManualNodes_eq] at hs
    unfold mergedManualNodes at hs
    obtain ⟨id, hid, hsome⟩ := List.mem_filterMap.mp hs
    obtain ⟨h1, h2, h3, h4⟩ := manualNodeFor_some env id s hsome
    exact ⟨h1, h3, h4, by rw [h2]; exact hid⟩
  · rw [targetSubscriptions_eq]
    exact map_id_filterMap_sublist (subscriptionFor env)
      (fun id s h => (subscriptionFor_some env id s h).2.1) _
  · rw [targetManualNodes_eq]
    exact map_id_filterMap_sublist (manualNodeFor env)
      (fun id s h => (manualNodeFor_some env id s h).2.1) _

theorem source_merger_refines_witness :
    targetSubscriptions sampleEnv profAlpha = [srcS1] ∧
      targetManualNodes sampleEnv profBeta = [srcM1, srcM2] ∧
      (srcS1.enabled = true ∧ startsWith srcS1.url "http" = true) :=
  ⟨(source_merger_refines sampleEnv profAlpha).1.trans (by decide),
    (source_merger_refines sampleEnv profBeta).2.1.trans (by decide),
    ((source_merger_refines sampleEnv profAlpha).2.2.2.1 srcS1 (by decide)).2.1,
    ((source_merger_refines sampleEnv profAlpha).2.2.2.1 srcS1 (by decide)).2.2.1⟩

/-! ## Retrieval orchestrator and transform switch -/

theorem collectNodes_foldl (results : List SourceResult) :
    ∀ acc : List Node,
      results.foldl (fun acc result => if result.success then acc ++ result.nodes else acc) acc =
        acc ++ (results.filter (fun r => r.success)).flatMap (fun r => r.nodes) := by
  induction results with
  | nil => intro acc; simp
  | cons r rest ih =>
    intro acc
    rw [List.foldl_cons, ih]
    cases hs : r.success <;> simp [hs]

theorem collectNodes_eq (results : List SourceResult) :
    collectNodes results =
      (results.filter (fun r => r.success)).flatMap (fun r => r.nodes) := by
  unfold collectNodes
  rw [collectNodes_foldl]
  simp

theorem activeTransform_isSome (applyTransform : Bool) (profile : Profile) :
    (activeTransform applyTransform profile).isSome = true ↔
      applyTransform = true ∧ ∃ nt, profile.nodeTransform = some nt ∧ nt.enabled = true := by
  unfold activeTransform
  cases applyTransform with
  | false => simp
  | true =>
    cases hn : profile.nodeTransform with
    | none => simp
    | some nt => cases he : nt.enabled <;> simp [he]

theorem manualNodeResult_success (env : Env) (src : Source) :
    (manualNodeResult env src).success = true := rfl

theorem filter_success_manual (env : Env) (l : List Source) :
    (l.map (manualNodeResult env)).filter (fun r => r.success) = l.map (manualNodeResult env) := by
  rw [List.filter_eq_self]
  intro r hr
  obtain ⟨s, _, rfl⟩ := List.mem_map.mp hr
  rfl

/-- C8. Tolerated retrieval failure: an active request with N target remote
subscriptions and M target manual nodes returns a per-source list of N + M
entries, the N fetch results in target order (failed ones with their error)
followed by the M manual results; when K fetches fail, N - K + M entries are
successful; and when no transform runs the node list is the in-order
concatenation of the `nodes` of exactly the successful entries, with totalCount
its length. -/
theorem retrieval_tolerates_failure (env : Env) (profileId userAgent : String)
    (applyTransform : Bool) (p : Profile)
    (hgate : accessGate env (resolveCredential env profileId) = .active p) :
    ∃ r, handleProfileMode env profileId userAgent applyTransform = .result r ∧
      r.success = true ∧
      r.subscriptions =
        (targetSubscriptions env p).map (fetchResult env userAgent) ++
          (targetManualNodes env p).map (manualNodeResult env) ∧
      r.subscriptions.length =
        (targetSubscriptions env p).length + (targetManualNodes env p).length ∧
      (∀ K, (((targetSubscriptions env p).map (fetchResult env userAgent)).filter
            (fun x => !x.success)).length = K →
        (r.subscriptions.filter (fun x => x.success)).length =
          (targetSubscriptions env p).length - K + (targetManualNodes env p).length) ∧
      (activeTransform applyTransform p = none →
        r.nodes = (r.subscriptions.filter (fun x => x.success)).flatMap (fun x => x.nodes) ∧
          r.totalCount = r.nodes.length) := by
  refine ⟨aggregate env p userAgent applyTransform,
    handleProfileMode_of_active env profileId userAgent applyTransform p hgate,
    rfl, rfl, ?_, ?_, ?_⟩
  · simp [aggregate, allResults]
  · intro K hK
    simp only [aggregate, allResults, List.filter_append, List.length_append,
      filter_success_manual, List.length_map]
    have hsplit := @List.length_eq_length_filter_add _
      ((targetSubscriptions env p).map (fetchResult env userAgent))
      (fun x : SourceResult => x.success)
    simp only [List.length_map] at hsplit
    rw [hK] at hsplit
    omega
  · intro hnone
    simp only [aggregate, processNodes, hnone, collectNodes_eq, and_self]

theorem retrieval_tolerates_failure_witness :
    ∃ r, handleProfileMode sampleEnv "alpha" "clash" false = .result r ∧
      r.subscriptions.length = 2 ∧
      r.subscriptions.map (fun x => x.success) = [false, true] ∧
      r.nodes = [{ sampleParse srcM1.url with subscriptionName := some "Home" }] ∧
      r.totalCount = 1 := by
  obtain ⟨r, h1, _, h3, h4, _, h6⟩ :=
    retrieval_tolerates_failure sampleEnv "alpha" "clash" false profAlpha (by decide)
  obtain ⟨h7, h8⟩ := h6 (by decide)
  have hn : r.nodes = [{ sampleParse srcM1.url with subscriptionName := some "Home" }] := by
    rw [h7, h3]
    decide
  refine ⟨r, h1, ?_, ?_, hn, ?_⟩
  · rw [h4]
    decide
  · rw [h3]
    decide
  · rw [h8, hn]
    rfl

/-- C9. Manual nodes: in the result of an active request the entries after the
fetch results are one per target manual node, in order, and the entry of a
target manual node has success true, no error, isManualNode true, the source's
url, and exactly one node, the parsed url; the entry's and the node's
subscriptionName are the source's name when non-empty and the default label
otherwise, whatever subscriptionName the parser returned. -/
theorem manual_node_results (env : Env) (profileId userAgent : String)
    (applyTransform : Bool) (p : Profile)
    (hgate : accessGate env (resolveCredential env profileId) = .active p) :
    ∃ r, handleProfileMode env profileId userAgent applyTransform = .result r ∧
      r.subscriptions.drop (targetSubscriptions env p).length =
        (targetManualNodes env p).map (manualNodeResult env) ∧
      ∀ src ∈ targetManualNodes env p,
        (manualNodeResult env src).success = true ∧
        (manualNodeResult env src).error = none ∧
        (manualNodeResult env src).isManualNode = true ∧
        (manualNodeResult env src).url = src.url ∧
        (manualNodeResult env src).subscriptionName =
          (if src.name ≠ "" then src.name else "手工节点") ∧
        (manualNodeResult env src).nodes.length = 1 ∧
        (manualNodeResult env src).nodes =
          [{ env.parseNodeInfo src.url with
              subscriptionName := some (if src.name ≠ "" then src.name else "手工节点") }] ∧
        (∀ n ∈ (manualNodeResult env src).nodes,
          n.subscriptionName = some (if src.name ≠ "" then src.name else "手工节点")) := by
  refine ⟨aggregate env p userAgent applyTransform,
    handleProfileMode_of_active env profileId userAgent applyTransform p hgate, ?_, ?_⟩
  · simp only [aggregate, allResults]
    rw [List.drop_append_eq_append_drop]
    simp
  · intro src _
    have hlabel : orDefault src.name "手工节点" = (if src.name ≠ "" then src.name else "手工节点") := by
      unfold orDefault
      by_cases h : src.name = "" <;> simp [h]
    refine ⟨rfl, rfl, rfl, rfl, hlabel, rfl, ?_, ?_⟩
    · simp only [manualNodeResult, hlabel]
    · intro n hn
      simp only [manualNodeResult, hlabel, List.mem_singleton] at hn
      rw [hn]

theorem manual_node_results_witness :
    ∃ r, handleProfileMode sampleEnv "tk-live" "clash" false = .result r ∧
      r.subscriptions.drop 1 = [manualNodeResult sampleEnv srcM1, manualNodeResult sampleEnv srcM2] ∧
      (manualNodeResult sampleEnv srcM1).subscriptionName = "Home" ∧
      (manualNodeResult sampleEnv srcM2).subscriptionName = "手工节点" ∧
      (manualNodeResult sampleEnv srcM2).nodes.length = 1 := by
  obtain ⟨r, h1, h2, h3⟩ :=
    manual_node_results sampleEnv "tk-live" "clash" false profBeta (by decide)
  refine ⟨r, h1, ?_, ?_, ?_, ?_⟩
  · have hlen : (targetSubscriptions sampleEnv profBeta).length = 1 := by decide
    rw [hlen] at h2
    rw [h2]
    decide
  · exact (h3 srcM1 (by decide)).2.2.2.2.1.trans (by decide)
  · exact (h3 srcM2 (by decide)).2.2.2.2.1.trans (by decide)
  · exact (h3 srcM2 (by decide)).2.2.2.2.2.1

/-- C10. Transform activation: the transform branch runs exactly when
applyTransform is true and the profile's nodeTransform is present with `enabled`
true, and then the node list is the re-correlated output of the pipeline; in
every other case (applyTransform false, nodeTransform absent, or its `enabled`
not true) the returned node list is, element for element and in order, the
flattened node list of the successful sources. -/
theorem transform_activation (env : Env) (profileId userAgent : String)
    (applyTransform : Bool) (p : Profile)
    (hgate : accessGate env (resolveCredential env profileId) = .active p) :
    ((activeTransform applyTransform p).isSome = true ↔
        applyTransform = true ∧ ∃ nt, p.nodeTransform = some nt ∧ nt.enabled = true) ∧
      ∃ r, handleProfileMode env profileId userAgent applyTransform = .result r ∧
        ((applyTransform = false ∨ p.nodeTransform = none ∨
            ∃ nt, p.nodeTransform = some nt ∧ nt.enabled = false) →
          r.nodes =
            (r.subscriptions.filter (fun x => x.success)).flatMap (fun x => x.nodes)) ∧
        (∀ nt, applyTransform = true → p.nodeTransform = some nt → nt.enabled = true →
          r.nodes =
            (env.applyNodeTransformPipeline
                (((r.subscriptions.filter (fun x => x.success)).flatMap
                  (fun x => x.nodes)).map (fun node => node.url))
                (transformConfig nt)).map
              (recorrelate env
                ((r.subscriptions.filter (fun x => x.success)).flatMap (fun x => x.nodes)))) := by
  refine ⟨activeTransform_isSome applyTransform p,
    aggregate env p userAgent applyTransform,
    handleProfileMode_of_active env profileId userAgent applyTransform p hgate, ?_, ?_⟩
  · intro hcase
    have hnone : activeTransform applyTransform p = none := by
      cases hx : activeTransform applyTransform p with
      | none => rfl
      | some nt' =>
        have hsome : (activeTransform applyTransform p).isSome = true := by simp [hx]
        obtain ⟨ha, nt, hnt, hen⟩ := (activeTransform_isSome applyTransform p).mp hsome
        rcases hcase with h | h | ⟨nt2, h, h2⟩
        · rw [ha] at h
          cases h
        · rw [h] at hnt
          cases hnt
        · rw [h] at hnt
          cases hnt
          rw [hen] at h2
          cases h2
    simp only [aggregate, processNodes, hnone, collectNodes_eq]
  · intro nt ha hnt hen
    have hsome : activeTransform applyTransform p = some nt := by
      simp [activeTransform, ha, hnt, hen]
    simp only [aggregate, processNodes, hsome, collectNodes_eq]

theorem transform_activation_witness :
    (∃ r, handleProfileMode sampleEnv "alpha" "clash" true = .result r ∧
        r.nodes = [{ sampleParse srcM1.url with subscriptionName := some "Home" }]) ∧
      (∃ r, handleProfileMode sampleEnv "delta" "clash" true = .result r ∧
        r.nodes.map (fun n => n.url) = [srcM2.url, srcM1.url]) ∧
      (∃ r, handleProfileMode sampleEnv "delta" "clash" false = .result r ∧
        r.nodes.map (fun n => n.url) = [srcM1.url, srcM2.url]) := by
  refine ⟨?_, ?_, ?_⟩
  · obtain ⟨_, r, h1, h2, _⟩ :=
      transform_activation sampleEnv "alpha" "clash" true profAlpha (by decide)
    refine ⟨r, h1, ?_⟩
    rw [h2 (Or.inr (Or.inl rfl))]
    have hr : r = aggregate sampleEnv profAlpha "clash" true := by
      have h0 : handleProfileMode sampleEnv "alpha" "clash" true =
          .result (aggregate sampleEnv profAlpha "clash" true) := by decide
      rw [h0] at h1
      cases h1
      rfl
    rw [hr]
    decide
  · obtain ⟨_, r, h1, _, h3⟩ :=
      transform_activation sampleEnv "delta" "clash" true profDelta (by decide)
    refine ⟨r, h1, ?_⟩
    rw [h3 _ rfl rfl rfl]
    have hr : r = aggregate sampleEnv profDelta "clash" true := by
      have h0 : handleProfileMode sampleEnv "delta" "clash" true =
          .result (aggregate sampleEnv profDelta "clash" true) := by decide
      rw [h0] at h1
      cases h1
      rfl
    rw [hr]
    decide
  · obtain ⟨_, r, h1, h2, _⟩ :=
      transform_activation sampleEnv "delta" "clash" false profDelta (by decide)
    refine ⟨r, h1, ?_⟩
    rw [h2 (Or.inl rfl)]
    have hr : r = aggregate sampleEnv profDelta "clash" false := by
      have h0 : handleProfileMode sampleEnv "delta" "clash" false =
          .result (aggregate sampleEnv profDelta "clash" false) := by decide
      rw [h0] at h1
      cases h1
      rfl
    rw [hr]
    decide

/-! ## Transform adapter -/

theorem sameHostPort_eq_sameEndpoint (env : Env) (u : String) (n : Node) :
    sameHostPort env u n = sameEndpoint env u n := by
  unfold sameHostPort sameEndpoint
  cases h1 : env.parseURL n.url with
  | none => cases h2 : env.parseURL u <;> rfl
  | some o =>
    cases h2 : env.parseURL u with
    | none => rfl
    | some t =>
      simp only
      rw [Bool.beq_comm (a := o.1), Bool.beq_comm (a := o.2)]

theorem recorrelate_subscriptionName (env : Env) (allNodes : List Node) (u : String) :
    (recorrelate env allNodes u).subscriptionName =
      if truthy ((allNodes.find? (sameHostPort env u)).bind (fun n => n.subscriptionName)) then
        (allNodes.find? (sameHostPort env u)).bind (fun n => n.subscriptionName)
      else fallbackLabel (env.parseNodeInfo u) := rfl

theorem find?_of_unique {α : Type} (p : α → Bool) (n : α) :
    ∀ l : List α, n ∈ l → p n = true → (∀ m ∈ l, p m = true → m = n) → l.find? p = some n
  | [], h, _, _ => by simp at h
  | a :: rest, h, hp, huniq => by
    by_cases ha : p a = true
    · have : a = n := huniq a (List.mem_cons_self a rest) ha
      subst this
      simp [List.find?_cons, ha]
    · have hne : a ≠ n := by
        intro h0
        rw [h0] at ha
        exact ha hp
      have hmem : n ∈ rest := by
        rcases List.mem_cons.mp h with h1 | h1
        · exact absurd h1.symm hne
        · exact h1
      simp only [List.find?_cons, ha]
      exact find?_of_unique p n rest hmem hp
        (fun m hm hpm => huniq m (List.mem_cons_of_mem a hm) hpm)

theorem recorrelate_of_no_match (env : Env) (allNodes : List Node) (u : String)
    (h : ∀ n ∈ allNodes, sameEndpoint env u n = false) :
    (recorrelate env allNodes u).subscriptionName = fallbackLabel (env.parseNodeInfo u) := by
  have hf : allNodes.find? (sameHostPort env u) = none := by
    rw [List.find?_eq_none]
    intro n hn
    rw [sameHostPort_eq_sameEndpoint, h n hn]
    simp
  rw [recorrelate_subscriptionName, hf]
  simp [truthy]

theorem aggregate_nodes_of_transform (env : Env) (p : Profile) (userAgent : String)
    (applyTransform : Bool) (nt : NodeTransform)
    (ht : activeTransform applyTransform p = some nt) :
    (aggregate env p userAgent applyTransform).nodes =
      (env.applyNodeTransformPipeline
          ((collectNodes (allResults env p userAgent)).map (fun node => node.url))
          (transformConfig nt)).map
        (recorrelate env (collectNodes (allResults env p userAgent))) := by
  simp only [aggregate, processNodes, ht]

/-- C11, as amended. Re-correlation: when the transform is applied, a transformed
url whose host and port equal the host and port of exactly one node of the
original flattened list yields a node that carries that original node's
subscriptionName whenever that name is non-empty; when the original name is
empty or absent the node takes the re-parsed record's own subscriptionName if
non-empty, else the generic label. -/
theorem recorrelation_recovers_name (env : Env) (profileId userAgent : String)
    (applyTransform : Bool) (p : Profile) (nt : NodeTransform)
    (hgate : accessGate env (resolveCredential env profileId) = .active p)
    (ht : activeTransform applyTransform p = some nt) :
    ∃ r, handleProfileMode env profileId userAgent applyTransform = .result r ∧
      ∀ u ∈ env.applyNodeTransformPipeline
          ((collectNodes r.subscriptions).map (fun node => node.url)) (transformConfig nt),
        ∀ n ∈ collectNodes r.subscriptions,
          sameEndpoint env u n = true →
          (∀ m ∈ collectNodes r.subscriptions, sameEndpoint env u m = true → m = n) →
            recorrelate env (collectNodes r.subscriptions) u ∈ r.nodes ∧
            (∀ name, n.subscriptionName = some name → name ≠ "" →
              (recorrelate env (collectNodes r.subscriptions) u).subscriptionName =
                some name) ∧
            (truthy n.subscriptionName = false →
              (recorrelate env (collectNodes r.subscriptions) u).subscriptionName =
                fallbackLabel (env.parseNodeInfo u)) := by
  refine ⟨aggregate env p userAgent applyTransform,
    handleProfileMode_of_active env profileId userAgent applyTransform p hgate, ?_⟩
  intro u hu n hn hsame huniq
  have hsubs : (aggregate env p userAgent applyTransform).subscriptions =
      allResults env p userAgent := rfl
  rw [hsubs] at hu hn huniq ⊢
  have hfind : (collectNodes (allResults env p userAgent)).find? (sameHostPort env u) =
      some n := by
    apply find?_of_unique _ n _ hn
    · rw [sameHostPort_eq_sameEndpoint]
      exact hsame
    · intro m hm hpm
      rw [sameHostPort_eq_sameEndpoint] at hpm
      exact huniq m hm hpm
  refine ⟨?_, ?_, ?_⟩
  · rw [aggregate_nodes_of_transform env p userAgent applyTransform nt ht]
    exact List.mem_map.mpr ⟨u, hu, rfl⟩
  · intro name hname hne
    rw [recorrelate_subscriptionName, hfind]
    simp [hname, truthy, hne]
  · intro hfalsy
    rw [recorrelate_subscriptionName, hfind]
    simp only [Option.some_bind, hfalsy, Bool.false_eq_true, if_false]

theorem recorrelation_recovers_name_witness :
    ∃ r, handleProfileMode demoEnv "relabel" "clash" true = .result r ∧
      (recorrelate demoEnv (collectNodes r.subscriptions)
        "trojan://pw@a.example:443#renamed").subscriptionName = some "Feed" := by
  obtain ⟨r, h1, h2⟩ := recorrelation_recovers_name demoEnv "relabel" "clash" true profRelabel
    { enabled := true, enableEmoji := false, renameTemplate := none, settings := "rules" }
    (by decide) (by decide)
  have hr : r = aggregate demoEnv profRelabel "clash" true := by
    have h0 : handleProfileMode demoEnv "relabel" "clash" true =
        .result (aggregate demoEnv profRelabel "clash" true) := by decide
    rw [h0] at h1
    cases h1
    rfl
  subst hr
  exact ⟨_, h1, (h2 "trojan://pw@a.example:443#renamed" (by decide)
    (fetchedNode "trojan://pw@a.example:443" "Feed") (by decide) (by decide)
    (by decide)).2.1 "Feed" rfl (by decide)⟩

/-- C11, counterexample. In the second deployment the transformed url
"ss://x@b.example:8388#renamed" has the host and port of exactly one original
node, the one fetched from the unnamed source F2, whose subscriptionName is the
empty string; the resulting node is labelled "from parser", not with that
original subscriptionName. -/
theorem recorrelation_loses_empty_name :
    handleProfileMode demoEnv "relabel" "clash" true =
        .result (aggregate demoEnv profRelabel "clash" true) ∧
      "ss://x@b.example:8388#renamed" ∈
        demoEnv.applyNodeTransformPipeline
          ((collectNodes (allResults demoEnv profRelabel "clash")).map (fun node => node.url))
          (transformConfig
            { enabled := true, enableEmoji := false, renameTemplate := none,
              settings := "rules" }) ∧
      (collectNodes (allResults demoEnv profRelabel "clash")).filter
          (sameEndpoint demoEnv "ss://x@b.example:8388#renamed") =
        [fetchedNode "ss://x@b.example:8388" ""] ∧
      (fetchedNode "ss://x@b.example:8388" "").subscriptionName = some "" ∧
      recorrelate demoEnv (collectNodes (allResults demoEnv profRelabel "clash"))
          "ss://x@b.example:8388#renamed" ∈
        (aggregate demoEnv profRelabel "clash" true).nodes ∧
      (recorrelate demoEnv (collectNodes (allResults demoEnv profRelabel "clash"))
          "ss://x@b.example:8388#renamed").subscriptionName = some "from parser" ∧
      (recorrelate demoEnv (collectNodes (allResults demoEnv profRelabel "clash"))
          "ss://x@b.example:8388#renamed").subscriptionName ≠
        (fetchedNode "ss://x@b.example:8388" "").subscriptionName := by
  decide

/-- C12. The transform never drops a node and never fails on a missing match:
when the transform is applied the final node list is the image, url by url and
in the pipeline's order, of the urls the pipeline returned (same length, and
totalCount is that length), each node being the re-parsed record of its url; a
url that matches no original node by host and port, in particular one that
does not parse as a url, yields a node whose subscriptionName is the re-parsed
record's own subscriptionName if non-empty, else the generic label. -/
theorem transform_keeps_every_url (env : Env) (profileId userAgent : String)
    (applyTransform : Bool) (p : Profile) (nt : NodeTransform)
    (hgate : accessGate env (resolveCredential env profileId) = .active p)
    (ht : activeTransform applyTransform p = some nt) :
    ∃ r, handleProfileMode env profileId userAgent applyTransform = .result r ∧
      r.nodes =
        (env.applyNodeTransformPipeline
            ((collectNodes r.subscriptions).map (fun node => node.url))
            (transformConfig nt)).map
          (recorrelate env (collectNodes r.subscriptions)) ∧
      r.nodes.length =
        (env.applyNodeTransformPipeline
            ((collectNodes r.subscriptions).map (fun node => node.url))
            (transformConfig nt)).length ∧
      r.totalCount = r.nodes.length ∧
      (∀ u,
        recorrelate env (collectNodes r.subscriptions) u =
          { env.parseNodeInfo u with
            subscriptionName :=
              (recorrelate env (collectNodes r.subscriptions) u).subscriptionName }) ∧
      (∀ u, (∀ n ∈ collectNodes r.subscriptions, sameEndpoint env u n = false) →
        (recorrelate env (collectNodes r.subscriptions) u).subscriptionName =
          (if truthy (env.parseNodeInfo u).subscriptionName then
            (env.parseNodeInfo u).subscriptionName
          else some "未知")) ∧
      (∀ u, env.parseURL u = none →
        (recorrelate env (collectNodes r.subscriptions) u).subscriptionName =
          (if truthy (env.parseNodeInfo u).subscriptionName then
            (env.parseNodeInfo u).subscriptionName
          else some "未知")) := by
  refine ⟨aggregate env p userAgent applyTransform,
    handleProfileMode_of_active env profileId userAgent applyTransform p hgate, ?_⟩
  have hsubs : (aggregate env p userAgent applyTransform).subscriptions =
      allResults env p userAgent := rfl
  rw [hsubs]
  have hnodes := aggregate_nodes_of_transform env p userAgent applyTransform nt ht
  refine ⟨hnodes, ?_, rfl, ?_, ?_, ?_⟩
  · rw [hnodes, List.length_map]
  · intro u
    rfl
  · intro u hno
    exact recorrelate_of_no_match env _ u hno
  · intro u hnone
    apply recorrelate_of_no_match env _ u
    intro n _
    simp [sameEndpoint, hnone]

theorem transform_keeps_every_url_witness :
    ∃ r, handleProfileMode demoEnv "relabel" "clash" true = .result r ∧
      r.nodes.length = 4 ∧
      (recorrelate demoEnv (collectNodes r.subscriptions) "garbage").subscriptionName =
        some "未知" := by
  obtain ⟨r, h1, _, h3, _, _, _, h7⟩ :=
    transform_keeps_every_url demoEnv "relabel" "clash" true profRelabel
      { enabled := true, enableEmoji := false, renameTemplate := none, settings := "rules" }
      (by decide) (by decide)
  have hr : r = aggregate demoEnv profRelabel "clash" true := by
    have h0 : handleProfileMode demoEnv "relabel" "clash" true =
        .result (aggregate demoEnv profRelabel "clash" true) := by decide
    rw [h0] at h1
    cases h1
    rfl
  subst hr
  refine ⟨_, h1, ?_, ?_⟩
  · rw [h3]
    decide
  · rw [h7 "garbage" (by decide)]
    decide

/-! ## Result invariants -/

theorem generateExpiredNodeWith_ok_length (encode : String → Except String String)
    (message : String) (nodes : List Node)
    (h : generateExpiredNodeWith encode message = .ok nodes) : nodes.length = 1 := by
  unfold generateExpiredNodeWith at h
  simp only at h
  split at h
  · cases h
  · cases h
    rfl

theorem expiredOutcomeWith_result (encode : String → Except String String) (e : String)
    (r : ProfileResult) (h : expiredOutcomeWith encode e = .result r) :
    ∃ nodes, nodes.length = 1 ∧ r = expiredResult nodes := by
  unfold expiredOutcomeWith at h
  cases hgen : generateExpiredNodeWith encode
      ("此订阅链接已于 " ++ e ++ " 到期，请联系管理员。") with
  | error err =>
    rw [hgen] at h
    cases h
  | ok nodes =>
    rw [hgen] at h
    simp only [Outcome.result.injEq] at h
    exact ⟨nodes, generateExpiredNodeWith_ok_length encode _ nodes hgen, h.symm⟩

theorem handleProfileMode_result (env : Env) (profileId userAgent : String)
    (applyTransform : Bool) (r : ProfileResult)
    (h : handleProfileMode env profileId userAgent applyTransform = .result r) :
    ∃ p, accessGate env (resolveCredential env profileId) = .active p ∧
      r = aggregate env p userAgent applyTransform := by
  unfold handleProfileMode at h
  cases hg : accessGate env (resolveCredential env profileId) with
  | denied =>
    rw [hg] at h
    cases h
  | expired e =>
    rw [hg] at h
    simp only [expiredOutcome_throws] at h
    cases h
  | active p =>
    rw [hg] at h
    simp only [Outcome.result.injEq] at h
    exact ⟨p, rfl, h.symm⟩

/-- C13. For every successful result the handler returns, the values of the
protocol mapping sum to totalCount and the values of the region mapping sum to
totalCount, provided each statistics helper returns a mapping whose values sum
to the length of the node list it is given. A result is returned on the
aggregation path only: the expired branch ends in an exception, and the object
it builds, for whatever the encoder returns, carries totalCount 1 with two
empty mappings. -/
theorem stats_sum_to_totalCount (env : Env) (profileId userAgent : String)
    (applyTransform : Bool) :
    ((∀ nodes, statSum (env.calculateProtocolStats nodes) = nodes.length) →
        (∀ nodes, statSum (env.calculateRegionStats nodes) = nodes.length) →
        ∀ r, handleProfileMode env profileId userAgent applyTransform = .result r →
          r.success = true ∧
            statSum r.protocols = r.totalCount ∧ statSum r.regions = r.totalCount) ∧
      (∀ r, handleProfileMode env profileId userAgent applyTransform = .result r →
        ∃ p, accessGate env (resolveCredential env profileId) = .active p ∧
          r = aggregate env p userAgent applyTransform) ∧
      (∀ e, accessGate env (resolveCredential env profileId) = .expired e →
        handleProfileMode env profileId userAgent applyTransform =
          .thrown "InvalidCharacterError") ∧
      (∀ (encode : String → Except String String) (e : String) (r : ProfileResult),
        expiredOutcomeWith encode e = .result r →
          r.totalCount = 1 ∧ r.protocols = [] ∧ r.regions = []) := by
  refine ⟨?_, handleProfileMode_result env profileId userAgent applyTransform, ?_, ?_⟩
  · intro hproto hregion r h
    obtain ⟨p, _, hr⟩ := handleProfileMode_result env profileId userAgent applyTransform r h
    subst hr
    refine ⟨rfl, ?_, ?_⟩
    · simp only [aggregate]
      exact hproto _
    · simp only [aggregate]
      exact hregion _
  · intro e hg
    rw [handleProfileMode_of_expired env profileId userAgent applyTransform e hg,
      expiredOutcome_throws]
  · intro encode e r h
    obtain ⟨nodes, _, hr⟩ := expiredOutcomeWith_result encode e r h
    subst hr
    exact ⟨rfl, rfl, rfl⟩

theorem stats_sum_to_totalCount_witness :
    statSum (aggregate demoEnv profRelabel "clash" true).protocols = 4 ∧
      statSum (aggregate demoEnv profRelabel "clash" true).regions = 4 ∧
      (aggregate demoEnv profRelabel "clash" true).totalCount = 4 ∧
      handleProfileMode sampleEnv "beta" "clash" false = .thrown "InvalidCharacterError" := by
  have hdemo := (stats_sum_to_totalCount demoEnv "relabel" "clash" true).1
    (by
      intro nodes
      cases nodes with
      | nil => rfl
      | cons n rest => simp [demoEnv, statSum])
    (by
      intro nodes
      cases nodes with
      | nil => rfl
      | cons n rest => simp [demoEnv, statSum])
  obtain ⟨_, h2, h3⟩ := hdemo (aggregate demoEnv profRelabel "clash" true) (by decide)
  have hcount : (aggregate demoEnv profRelabel "clash" true).totalCount = 4 := by decide
  exact ⟨h2.trans hcount, h3.trans hcount, hcount,
    (stats_sum_to_totalCount sampleEnv "beta" "clash" false).2.2.1 "2020-01-01" (by decide)⟩

/-- C17. Result invariant: in every result object the handler returns,
totalCount equals the length of the returned node list: on the aggregation
path, with transform or without, totalCount is the length of the processed
list, and the result object of the expired branch has totalCount 1 and holds
the one-element placeholder list, for whatever the encoder of the placeholder
returns. -/
theorem totalCount_eq_length (env : Env) (profileId userAgent : String)
    (applyTransform : Bool) :
    (∀ r, handleProfileMode env profileId userAgent applyTransform = .result r →
        r.success = true ∧ r.totalCount = r.nodes.length) ∧
      (∀ (encode : String → Except String String) (e : String) (r : ProfileResult),
        expiredOutcomeWith encode e = .result r →
          r.success = true ∧ r.totalCount = 1 ∧ r.nodes.length = 1 ∧
            r.totalCount = r.nodes.length) ∧
      (∀ (encode : String → Except String String) (message encoded : String),
        encode (jsonStringify
            [("v", "2"), ("ps", "[提示] " ++ message), ("add", "127.0.0.1"), ("port", "80"),
             ("id", "00000000-0000-0000-0000-000000000000"), ("aid", "0"), ("scy", "auto"),
             ("net", "tcp"), ("type", "none"), ("host", ""), ("path", ""), ("tls", "")]) =
          .ok encoded →
        ∃ node, generateExpiredNodeWith encode message = .ok [node] ∧
          node.name = "[提示] " ++ message ∧ node.url = "vmess://" ++ encoded) ∧
      (∀ p, (aggregate env p userAgent applyTransform).totalCount =
        (aggregate env p userAgent applyTransform).nodes.length) := by
  refine ⟨?_, ?_, ?_, ?_⟩
  · intro r h
    obtain ⟨p, _, hr⟩ := handleProfileMode_result env profileId userAgent applyTransform r h
    subst hr
    exact ⟨rfl, rfl⟩
  · intro encode e r h
    obtain ⟨nodes, hlen, hr⟩ := expiredOutcomeWith_result encode e r h
    subst hr
    exact ⟨rfl, rfl, hlen, hlen.symm⟩
  · intro encode message encoded henc
    unfold generateExpiredNodeWith
    simp only [henc]
    exact ⟨_, rfl, rfl, rfl⟩
  · intro p
    rfl

theorem totalCount_eq_length_witness :
    (aggregate demoEnv profRelabel "clash" true).totalCount = 4 ∧
      (aggregate sampleEnv profAlpha "clash" false).totalCount =
        (aggregate sampleEnv profAlpha "clash" false).nodes.length ∧
      (∃ r, expiredOutcomeWith (fun _ => .ok "e30=") "2020-01-01" = .result r ∧
        r.totalCount = r.nodes.length) :=
  ⟨((totalCount_eq_length demoEnv "relabel" "clash" true).1
      (aggregate demoEnv profRelabel "clash" true) (by decide)).2.trans (by decide),
    ((totalCount_eq_length sampleEnv "alpha" "clash" false).1
      (aggregate sampleEnv profAlpha "clash" false) (by decide)).2,
    ⟨expiredResult
        [{ name := "[提示] 此订阅链接已于 2020-01-01 到期，请联系管理员。"
           type := "vmess"
           server := "127.0.0.1"
           port := 80
           uuid := "00000000-0000-0000-0000-000000000000"
           alterId := 0
           cipher := "auto"
           tls := false
           network := "tcp"
           subscriptionName := some "系统提示"
           url := "vmess://e30=" }],
      rfl,
      ((totalCount_eq_length sampleEnv "beta" "clash" false).2.1 (fun _ => .ok "e30=")
        "2020-01-01" _ rfl).2.2.2⟩⟩

/-! ## Token eligibility and shadowing -/

theorem matchesIdentifier_of_not_byId (profileId : String) (p : Profile)
    (hb : matchesById profileId p = false) :
    matchesIdentifier profileId p =
      (p.accessTokens.getD []).any (tokenEligible profileId) := by
  unfold matchesIdentifier
  unfold matchesById at hb
  rw [hb, Bool.false_or]
  cases p.accessTokens with
  | none => rfl
  | some tokens => rfl

theorem find?_tokenEligible_some (profileId : String) (tokens : List AccessToken)
    (t : AccessToken) (h : tokens.find? (tokenEligible profileId) = some t) :
    t ∈ tokens ∧ t.token = profileId ∧ t.enabled ≠ some false := by
  have h1 := List.mem_of_find?_eq_some h
  have h2 := List.find?_some h
  simp only [tokenEligible, Bool.and_eq_true, beq_iff_eq, bne_iff_ne, ne_eq] at h2
  exact ⟨h1, h2.1, h2.2⟩

/-- C14. Token eligibility: for an identifier that equals no profile's id or
present customId, a profile is resolved only through one of its own tokens that
equals the identifier and whose `enabled` is not false; a token whose `enabled`
is absent is eligible and makes the lookup succeed with a token context; and if
every token equal to the identifier has `enabled` false the handler returns the
not-found response, whatever the `enabled` flag of the owning profiles. -/
theorem token_eligibility (env : Env) (profileId : String)
    (hno : ∀ p ∈ allProfiles env, matchesById profileId p = false) :
    (∀ p tok, resolveCredential env profileId = (some p, tok) →
        ∃ t, tok = some t ∧ t ∈ p.accessTokens.getD [] ∧ t.token = profileId ∧
          t.enabled ≠ some false) ∧
      (∀ p ∈ allProfiles env, ∀ t ∈ p.accessTokens.getD [],
        t.token = profileId → t.enabled = none →
          ∃ q tok, resolveCredential env profileId = (some q, some tok)) ∧
      ((∀ p ∈ allProfiles env, ∀ t ∈ p.accessTokens.getD [],
          t.token = profileId → t.enabled = some false) →
        ∀ (userAgent : String) (applyTransform : Bool),
          handleProfileMode env profileId userAgent applyTransform =
            .jsonResponse "订阅组不存在或已禁用" 404) := by
  have hres : ∀ q, (allProfiles env).find? (matchesIdentifier profileId) = some q →
      ∃ t, resolveCredential env profileId = (some q, some t) ∧
        t ∈ q.accessTokens.getD [] ∧ t.token = profileId ∧ t.enabled ≠ some false := by
    intro q hq
    have hqmem := List.mem_of_find?_eq_some hq
    have hqm : matchesIdentifier profileId q = true := List.find?_some hq
    have hqb := hno q hqmem
    rw [matchesIdentifier_of_not_byId profileId q hqb, List.any_eq_true] at hqm
    obtain ⟨t0, ht0, he0⟩ := hqm
    have hsome : ((q.accessTokens.getD []).find? (tokenEligible profileId)).isSome = true := by
      rw [List.find?_isSome]
      exact ⟨t0, ht0, he0⟩
    obtain ⟨t, ht⟩ := Option.isSome_iff_exists.mp hsome
    refine ⟨t, ?_, find?_tokenEligible_some profileId _ t ht⟩
    rw [resolveCredential_eq, hq]
    simp only [matchProfile_snd_none, hqb, Bool.false_eq_true, if_false, ht]
  refine ⟨?_, ?_, ?_⟩
  · intro p tok h
    have hfind : (allProfiles env).find? (matchesIdentifier profileId) = some p := by
      rw [← resolveCredential_fst, h]
    obtain ⟨t, ht, hrest⟩ := hres p hfind
    rw [h] at ht
    simp only [Prod.mk.injEq, true_and] at ht
    exact ⟨t, ht, hrest⟩
  · intro p hp t ht htok hen
    have hm : matchesIdentifier profileId p = true := by
      rw [matchesIdentifier_of_not_byId profileId p (hno p hp), List.any_eq_true]
      exact ⟨t, ht, by simp [tokenEligible, htok, hen]⟩
    have hsome : ((allProfiles env).find? (matchesIdentifier profileId)).isSome = true := by
      rw [List.find?_isSome]
      exact ⟨p, hp, hm⟩
    obtain ⟨q, hq⟩ := Option.isSome_iff_exists.mp hsome
    obtain ⟨tok, htok', _⟩ := hres q hq
    exact ⟨q, tok, htok'⟩
  · intro hall userAgent applyTransform
    apply handleProfileMode_of_no_profile
    rw [resolveCredential_fst, List.find?_eq_none]
    intro p hp
    rw [matchesIdentifier_of_not_byId profileId p (hno p hp)]
    simp only [Bool.not_eq_true, List.any_eq_false]
    intro t ht
    by_cases htok : t.token = profileId
    · simp [tokenEligible, htok, hall p hp t ht htok]
    · simp [tokenEligible, htok]

theorem token_eligibility_witness :
    handleProfileMode sampleEnv "tk-off" "clash" false =
        .jsonResponse "订阅组不存在或已禁用" 404 ∧
      profAlpha.enabled = true ∧ tokOff ∈ profAlpha.accessTokens.getD [] ∧
      (∃ q tok, resolveCredential sampleEnv "tk-plain" = (some q, some tok)) :=
  ⟨(token_eligibility sampleEnv "tk-off" (by decide)).2.2 (by decide) "clash" false,
    by decide, by decide,
    (token_eligibility sampleEnv "tk-plain" (by decide)).2.1 profAlpha (by decide)
      tokPlain (by decide) rfl rfl⟩

/-- C18. Shadowing by an earlier disabled match: when the first profile of the
collection that matches the identifier is disabled, the lookup resolves to it and
the handler returns the 404 response, also when an enabled profile that matches
the same identifier follows it; that later profile is not the resolved one and no
result object is returned. -/
theorem disabled_match_shadows (env : Env) (profileId userAgent : String)
    (applyTransform : Bool) (pre : List Profile) (d : Profile) (rest : List Profile)
    (e : Profile)
    (hsplit : allProfiles env = pre ++ d :: rest)
    (hpre : ∀ q ∈ pre, matchesIdentifier profileId q = false)
    (hd : matchesIdentifier profileId d = true) (hdis : d.enabled = false)
    (_he : e ∈ rest) (_hem : matchesIdentifier profileId e = true) (hen : e.enabled = true) :
    (resolveCredential env profileId).1 = some d ∧
      (resolveCredential env profileId).1 ≠ some e ∧
      handleProfileMode env profileId userAgent applyTransform =
        .jsonResponse "订阅组不存在或已禁用" 404 ∧
      ∀ r, handleProfileMode env profileId userAgent applyTransform ≠ .result r := by
  have hfind : (resolveCredential env profileId).1 = some d := by
    rw [resolveCredential_fst, hsplit, List.find?_append]
    have hnone : pre.find? (matchesIdentifier profileId) = none := by
      rw [List.find?_eq_none]
      intro q hq
      simp [hpre q hq]
    rw [hnone]
    simp [List.find?_cons, hd]
  have h404 : handleProfileMode env profileId userAgent applyTransform =
      .jsonResponse "订阅组不存在或已禁用" 404 := by
    rw [handleProfileMode_jsonResponse_iff, accessGate_denied_iff]
    exact ⟨Or.inr ⟨d, hfind, hdis⟩, rfl, rfl⟩
  refine ⟨hfind, ?_, h404, ?_⟩
  · rw [hfind]
    intro h
    cases h
    rw [hdis] at hen
    cases hen
  · intro r hr
    rw [h404] at hr
    cases hr

theorem disabled_match_shadows_witness :
    handleProfileMode demoEnv "shared" "clash" false =
        .jsonResponse "订阅组不存在或已禁用" 404 ∧
      profCurrent.enabled = true ∧ matchesIdentifier "shared" profCurrent = true :=
  ⟨(disabled_match_shadows demoEnv "shared" "clash" false [] profRetired
      [profCurrent, profRelabel] profCurrent (by decide) (by decide) (by decide) (by decide)
      (by decide) (by decide) (by decide)).2.2.1,
    by decide, by decide⟩

/-! ## Classification, transform configuration, duplicate ids -/

theorem isPrefixOf_trans_chars (a b l : List Char) (hab : a.isPrefixOf b = true)
    (hbl : b.isPrefixOf l = true) : a.isPrefixOf l = true := by
  rw [List.isPrefixOf_iff_prefix] at hab hbl ⊢
  exact hab.trans hbl

theorem startsWith_http_of_scheme (url : String) (h : hasHttpScheme url = true) :
    startsWith url "http" = true := by
  unfold hasHttpScheme at h
  unfold startsWith at h ⊢
  rcases Bool.or_eq_true _ _ ▸ h with h1 | h1
  · exact isPrefixOf_trans_chars _ "http://".toList _ (by decide) h1
  · exact isPrefixOf_trans_chars _ "https://".toList _ (by decide) h1

theorem subscriptionFor_of_lookup (env : Env) (id : String) (s : Source)
    (hget : mapGet (misubMap env) id = some s) :
    subscriptionFor env id = if s.enabled && startsWith s.url "http" then some s else none := by
  unfold subscriptionFor
  rw [hget]
  rfl

theorem manualNodeFor_of_lookup (env : Env) (id : String) (s : Source)
    (hget : mapGet (misubMap env) id = some s) :
    manualNodeFor env id = if s.enabled && !startsWith s.url "http" then some s else none := by
  unfold manualNodeFor
  rw [hget]
  rfl

/-- C15, as amended. Source classification: a source is treated as a remote
subscription exactly when its url begins with the four characters "http", and as
a manual node otherwise; so an enabled source listed under `subscriptions` is
among the fetched targets iff its url begins with "http", an enabled source
listed under `manualNodes` is among the parsed targets iff its url does not
begin with "http", and every url with an http:// or https:// scheme counts as a
remote subscription. -/
theorem source_classification (env : Env) (profile : Profile) (userAgent : String) :
    (∀ id ∈ profile.subscriptions.getD [], ∀ s, mapGet (misubMap env) id = some s →
        s.enabled = true →
          (s ∈ targetSubscriptions env profile ↔ startsWith s.url "http" = true)) ∧
      (∀ id ∈ profile.manualNodes.getD [], ∀ s, mapGet (misubMap env) id = some s →
        s.enabled = true →
          (s ∈ targetManualNodes env profile ↔ startsWith s.url "http" = false)) ∧
      allResults env profile userAgent =
        (targetSubscriptions env profile).map (fetchResult env userAgent) ++
          (targetManualNodes env profile).map (manualNodeResult env) ∧
      (∀ url, hasHttpScheme url = true → startsWith url "http" = true) := by
  refine ⟨?_, ?_, rfl, startsWith_http_of_scheme⟩
  · intro id hid s hget hen
    rw [targetSubscriptions_eq]
    unfold mergedSubscriptions
    constructor
    · intro hs
      obtain ⟨id', _, hsome⟩ := List.mem_filterMap.mp hs
      exact (subscriptionFor_some env id' s hsome).2.2.2
    · intro hhttp
      apply List.mem_filterMap.mpr
      refine ⟨id, hid, ?_⟩
      rw [subscriptionFor_of_lookup env id s hget]
      simp [hen, hhttp]
  · intro id hid s hget hen
    rw [targetManualNodes_eq]
    unfold mergedManualNodes
    constructor
    · intro hs
      obtain ⟨id', _, hsome⟩ := List.mem_filterMap.mp hs
      exact (manualNodeFor_some env id' s hsome).2.2.2
    · intro hhttp
      apply List.mem_filterMap.mpr
      refine ⟨id, hid, ?_⟩
      rw [manualNodeFor_of_lookup env id s hget]
      simp [hen, hhttp]

theorem source_classification_witness :
    (srcF1 ∈ targetSubscriptions demoEnv profRelabel ↔ startsWith srcF1.url "http" = true) ∧
      (srcN1 ∈ targetManualNodes demoEnv profRelabel ↔ startsWith srcN1.url "http" = false) :=
  ⟨(source_classification demoEnv profRelabel "clash").1 "F1" (by decide) srcF1
      (by decide) (by decide),
    (source_classification demoEnv profRelabel "clash").2.1 "N1" (by decide) srcN1
      (by decide) (by decide)⟩

/-- C15, counterexample. The enabled source X1 has the url
"httpx://relay.example:443", which begins with neither http:// nor https://;
listed under `subscriptions` it is among the fetched targets, and listed under
`manualNodes` it is not among the parsed targets. -/
theorem httpx_source_is_fetched :
    srcX1 ∈ allSubscriptions demoEnv ∧ srcX1.enabled = true ∧
      hasHttpScheme srcX1.url = false ∧
      "X1" ∈ profRelabel.subscriptions.getD [] ∧
      srcX1 ∈ targetSubscriptions demoEnv profRelabel ∧
      fetchResult demoEnv "clash" srcX1 ∈ allResults demoEnv profRelabel "clash" ∧
      "X1" ∈ profRelabel.manualNodes.getD [] ∧
      srcX1 ∉ targetManualNodes demoEnv profRelabel := by
  decide

/-- C16. Transform configuration: when the transform is applied the pipeline is
called with the urls of the flattened nodes in their original order and with the
profile's nodeTransform in which only enableEmoji is replaced, by whether the
effective template contains the emoji placeholder; the effective template is the
custom rename template when non-empty and the default one otherwise, so with no
custom template enableEmoji is true, and the stored enableEmoji has no effect. -/
theorem transform_configuration (env : Env) (profileId userAgent : String)
    (applyTransform : Bool) (p : Profile) (nt : NodeTransform)
    (hgate : accessGate env (resolveCredential env profileId) = .active p)
    (ht : activeTransform applyTransform p = some nt) :
    p.nodeTransform = some nt ∧
      (∃ r, handleProfileMode env profileId userAgent applyTransform = .result r ∧
        r.nodes =
          (env.applyNodeTransformPipeline
              (((r.subscriptions.filter (fun x => x.success)).flatMap
                (fun x => x.nodes)).map (fun node => node.url))
              { enabled := nt.enabled
                enableEmoji := includes (templateFor nt.renameTemplate) "\x7bemoji\x7d"
                renameTemplate := nt.renameTemplate
                settings := nt.settings }).map
            (recorrelate env
              ((r.subscriptions.filter (fun x => x.success)).flatMap (fun x => x.nodes)))) ∧
      ((nt.renameTemplate = none ∨ nt.renameTemplate = some "") →
        (transformConfig nt).enableEmoji = true) ∧
      (∀ stored, transformConfig { nt with enableEmoji := stored } = transformConfig nt) := by
  have htemplate : effectiveTemplate nt = templateFor nt.renameTemplate := by
    unfold effectiveTemplate templateFor
    cases h : nt.renameTemplate with
    | none => simp [truthy]
    | some t =>
      by_cases h0 : t = ""
      · simp [truthy, h0]
      · simp [truthy, h0]
  have hcfg : transformConfig nt =
      { enabled := nt.enabled
        enableEmoji := includes (templateFor nt.renameTemplate) "\x7bemoji\x7d"
        renameTemplate := nt.renameTemplate
        settings := nt.settings } := by
    unfold transformConfig
    rw [htemplate]
  refine ⟨?_, ?_, ?_, ?_⟩
  · unfold activeTransform at ht
    cases applyTransform with
    | false => simp at ht
    | true =>
      cases hn : p.nodeTransform with
      | none => simp [hn] at ht
      | some nt' =>
        rw [hn] at ht
        cases he : nt'.enabled with
        | false => simp [he] at ht
        | true =>
          simp only [he, if_true, Option.some.injEq] at ht
          rw [ht]
  · refine ⟨aggregate env p userAgent applyTransform,
      handleProfileMode_of_active env profileId userAgent applyTransform p hgate, ?_⟩
    rw [aggregate_nodes_of_transform env p userAgent applyTransform nt ht, hcfg]
    have hsubs : (aggregate env p userAgent applyTransform).subscriptions =
        allResults env p userAgent := rfl
    rw [hsubs, collectNodes_eq]
  · intro hcase
    rw [hcfg]
    have hnone : includes (templateFor none) "\x7bemoji\x7d" = true := by decide
    have hempty : includes (templateFor (some "")) "\x7bemoji\x7d" = true := by decide
    rcases hcase with h | h
    · rw [h]
      exact hnone
    · rw [h]
      exact hempty
  · intro stored
    rfl

theorem transform_configuration_witness :
    profRelabel.nodeTransform =
        some { enabled := true, enableEmoji := false, renameTemplate := none,
               settings := "rules" } ∧
      (transformConfig
        { enabled := true, enableEmoji := false, renameTemplate := none,
          settings := "rules" }).enableEmoji = true :=
  ⟨(transform_configuration demoEnv "relabel" "clash" true profRelabel
      { enabled := true, enableEmoji := false, renameTemplate := none, settings := "rules" }
      (by decide) (by decide)).1,
    (transform_configuration demoEnv "relabel" "clash" true profRelabel
      { enabled := true, enableEmoji := false, renameTemplate := none, settings := "rules" }
      (by decide) (by decide)).2.2.1 (Or.inl rfl)⟩

theorem mapGet_misubMap_last (env : Env) (id : String) (pre : List Source) (s : Source)
    (post : List Source) (hsplit : allSubscriptions env = pre ++ s :: post)
    (hid : s.id = id) (hpost : ∀ q ∈ post, q.id ≠ id) :
    mapGet (misubMap env) id = some s := by
  rw [mapGet_misubMap, hsplit, List.reverse_append, List.reverse_cons, List.find?_append,
    List.find?_append]
  have hnone : post.reverse.find? (fun x => x.id == id) = none := by
    rw [List.find?_eq_none]
    intro q hq
    simp [hpost q (List.mem_reverse.mp hq)]
  rw [hnone]
  simp [List.find?_cons, hid]

theorem count_filterMap_of_key (f : String → Option Source)
    (hf : ∀ id s, f id = some s → s.id = id) (id : String) (s : Source)
    (hs : f id = some s) :
    ∀ ids : List String, (ids.filterMap f).count s = ids.count id
  | [] => by simp
  | a :: rest => by
    have ih := count_filterMap_of_key f hf id s hs rest
    rw [List.filterMap_cons]
    cases ha : f a with
    | none =>
      have hne : a ≠ id := by
        intro h0
        rw [h0, hs] at ha
        cases ha
      simp only
      rw [List.count_cons_of_ne (Ne.symm hne), ih]
    | some s' =>
      simp only
      by_cases hss : s' = s
      · have hai : a = id := by
          rw [← hf a s' ha, hss, hf id s hs]
        rw [hss, hai, List.count_cons_self, List.count_cons_self, ih]
      · have hne : a ≠ id := by
          intro h0
          rw [h0, hs] at ha
          exact hss (Option.some.inj ha).symm
        rw [List.count_cons_of_ne (Ne.symm hss), List.count_cons_of_ne (Ne.symm hne), ih]

/-- C19. Duplicate ids: when the source collection holds several entries with
the same id, the lookup of that id gives the last of them in collection order,
so that entry's enabled flag and url decide whether the id is included; and an
id that passes the filter appears in the target sequence as many times as it
occurs in the profile's declared list. -/
theorem duplicate_ids (env : Env) (profile : Profile) :
    (∀ id pre s post, allSubscriptions env = pre ++ s :: post → s.id = id →
        (∀ q ∈ post, q.id ≠ id) →
          mapGet (misubMap env) id = some s ∧
          subscriptionFor env id =
            (if s.enabled && startsWith s.url "http" then some s else none) ∧
          manualNodeFor env id =
            (if s.enabled && !startsWith s.url "http" then some s else none)) ∧
      (∀ id s, subscriptionFor env id = some s →
        (targetSubscriptions env profile).count s =
          (profile.subscriptions.getD []).count id) ∧
      (∀ id s, manualNodeFor env id = some s →
        (targetManualNodes env profile).count s =
          (profile.manualNodes.getD []).count id) := by
  refine ⟨?_, ?_, ?_⟩
  · intro id pre s post hsplit hid hpost
    have hget := mapGet_misubMap_last env id pre s post hsplit hid hpost
    exact ⟨hget, subscriptionFor_of_lookup env id s hget, manualNodeFor_of_lookup env id s hget⟩
  · intro id s hs
    rw [targetSubscriptions_eq]
    exact count_filterMap_of_key (subscriptionFor env)
      (fun id s h => (subscriptionFor_some env id s h).2.1) id s hs _
  · intro id s hs
    rw [targetManualNodes_eq]
    exact count_filterMap_of_key (manualNodeFor env)
      (fun id s h => (manualNodeFor_some env id s h).2.1) id s hs _

theorem duplicate_ids_witness :
    mapGet (misubMap demoEnv) "D1" = some srcD1b ∧
      (targetSubscriptions demoEnv profRelabel).count srcD1b = 2 :=
  ⟨((duplicate_ids demoEnv profRelabel).1 "D1" [srcF1, srcF2, srcX1, srcD1a] srcD1b [srcN1]
      (by decide) (by decide) (by decide)).1,
    ((duplicate_ids demoEnv profRelabel).2.1 "D1" srcD1b (by decide)).trans (by decide)⟩

end MiSub
